import Mathlib

/-!
Verification development for the CBF (caesar binary file) container decoder of
OpenVehicleDiag (`CBFParser/src/ecu.rs`).

The Rust source is shallowly embedded: machine integers become `Int`/`Nat`
with explicit wrapping where the source wraps; fallible reads become
`Except String`; the mutable byte cursor (`raf::Raf`) and the mutable bit
mask (`&mut u64`) are threaded explicitly through every decoding function.

The byte source `Raf` and the conditional field decoder `CReader` live in
crates of this repository that are not part of the parser source file
(`common::raf`, `crate::caesar`); they are modelled from the specification
(see the doc comments on each).  Everything in the `ecu.rs` file itself is
translated definition by definition.
-/

namespace CBF

/-- Rust `x as usize` for a signed integer `x` (sign-extend, reinterpret):
the representative of `x` modulo `2^64`. -/
def usizeOfInt (x : Int) : Nat := (x % (2 ^ 64 : Int)).toNat

/-- Interpret an unsigned `w`-bit value as a two's-complement signed value. -/
def toSigned (w : Nat) (v : Nat) : Int :=
  if v < 2 ^ (w - 1) then (v : Int) else (v : Int) - 2 ^ w

/-- Little-endian reassembly of a list of bytes into a natural number. -/
def leNat (bs : List Nat) : Nat :=
  bs.foldr (fun b acc => b % 256 + 256 * acc) 0

/-- Decode a list of bytes as a string, one character per byte. -/
def bytesToString (bs : List Nat) : String :=
  String.mk (bs.map Char.ofNat)

/-- Returns `true` exactly when an `Except` computation produced a value. -/
def exOk {ε α : Type} : Except ε α → Bool
  | .ok _ => true
  | .error _ => false

/-- Modelled from the spec: the byte source (`common::raf::Raf`, not under
`src/`) is "random-access seek/read, little-endian multi-byte integers"
over an in-memory byte buffer; every read past the end of the source is
fatal.  `data` is the buffer, `pos` the cursor. -/
structure Raf where
  data : List Nat
  pos : Nat
deriving DecidableEq, Repr

/-- Modelled from the spec: seek to an absolute offset. -/
def Raf.seek (r : Raf) (n : Nat) : Raf := { r with pos := n }

/-- Modelled from the spec: read `n` raw bytes at the cursor, advancing it;
reading past the end of the buffer is fatal. -/
def Raf.readBytes (r : Raf) (n : Nat) : Except String (List Nat × Raf) :=
  if r.pos + n ≤ r.data.length then
    .ok (((r.data.drop r.pos).take n).map (fun b => b % 256),
         { r with pos := r.pos + n })
  else .error "Raf: read past end of source"

/-- Modelled from the spec: read one unsigned byte. -/
def Raf.readU8 (r : Raf) : Except String (Nat × Raf) := do
  let (bs, r') ← r.readBytes 1
  .ok (leNat bs, r')

/-- Modelled from the spec: read a little-endian unsigned 16-bit value. -/
def Raf.readU16 (r : Raf) : Except String (Nat × Raf) := do
  let (bs, r') ← r.readBytes 2
  .ok (leNat bs, r')

/-- Modelled from the spec: read a little-endian unsigned 32-bit value. -/
def Raf.readU32 (r : Raf) : Except String (Nat × Raf) := do
  let (bs, r') ← r.readBytes 4
  .ok (leNat bs, r')

/-- Modelled from the spec: read a signed 8-bit value. -/
def Raf.readI8 (r : Raf) : Except String (Int × Raf) := do
  let (bs, r') ← r.readBytes 1
  .ok (toSigned 8 (leNat bs), r')

/-- Modelled from the spec: read a little-endian signed 16-bit value. -/
def Raf.readI16 (r : Raf) : Except String (Int × Raf) := do
  let (bs, r') ← r.readBytes 2
  .ok (toSigned 16 (leNat bs), r')

/-- Modelled from the spec: read a little-endian signed 32-bit value. -/
def Raf.readI32 (r : Raf) : Except String (Int × Raf) := do
  let (bs, r') ← r.readBytes 4
  .ok (toSigned 32 (leNat bs), r')

/-- Modelled from the spec: read a null-terminated string at the cursor,
advancing past the terminator; an unterminated string runs past the end of
the buffer and is fatal. -/
def Raf.readCString (r : Raf) : Except String (String × Raf) :=
  let rest := r.data.drop r.pos
  let s := rest.takeWhile (fun b => b % 256 ≠ 0)
  if s.length < rest.length then
    .ok (bytesToString (s.map (fun b => b % 256)),
         { r with pos := r.pos + s.length + 1 })
  else .error "Raf: unterminated string"

namespace CReader

/-- Modelled from the spec (§4.1): the conditional field decoder for a
signed 32-bit scalar.  Test the lowest unconsumed mask bit and shift the
mask right by one; bit = 0 returns the supplied default with the cursor
untouched, bit = 1 decodes from the cursor, advancing it by 4 bytes.
(`CReader::read_bitflag_i32` of `crate::caesar`, not under `src/`.) -/
def read_bitflag_i32 (f : Nat) (r : Raf) (d : Int) :
    Except String (Int × Nat × Raf) :=
  if f.testBit 0 then do
    let (v, r') ← r.readI32
    .ok (v, f >>> 1, r')
  else .ok (d, f >>> 1, r)

/-- Modelled from the spec (§4.1): conditional signed 16-bit scalar field;
bit = 1 advances the cursor by 2 bytes. -/
def read_bitflag_i16 (f : Nat) (r : Raf) (d : Int) :
    Except String (Int × Nat × Raf) :=
  if f.testBit 0 then do
    let (v, r') ← r.readI16
    .ok (v, f >>> 1, r')
  else .ok (d, f >>> 1, r)

/-- Modelled from the spec (§4.1): conditional signed 8-bit scalar field;
bit = 1 advances the cursor by 1 byte. -/
def read_bitflag_i8 (f : Nat) (r : Raf) (d : Int) :
    Except String (Int × Nat × Raf) :=
  if f.testBit 0 then do
    let (v, r') ← r.readI8
    .ok (v, f >>> 1, r')
  else .ok (d, f >>> 1, r)

/-- Modelled from the spec (§4.1): conditional unsigned 8-bit scalar field;
bit = 1 advances the cursor by 1 byte. -/
def read_bitflag_u8 (f : Nat) (r : Raf) (d : Nat) :
    Except String (Nat × Nat × Raf) :=
  if f.testBit 0 then do
    let (v, r') ← r.readU8
    .ok (v, f >>> 1, r')
  else .ok (d, f >>> 1, r)

/-- Modelled from the spec (§4.1): conditional string field.  Bit = 0
returns `none`; bit = 1 decodes a signed 32-bit relative offset, computes
the absolute address `base + offset` and reads the null-terminated payload
from that address; only the 4 offset bytes are consumed from the main
cursor — the indirection target is read separately. -/
def read_bitflag_string (f : Nat) (r : Raf) (base : Int) :
    Except String (Option String × Nat × Raf) :=
  if f.testBit 0 then do
    let (off, r') ← r.readI32
    let (s, _) ← (r'.seek (usizeOfInt (base + off))).readCString
    .ok (some s, f >>> 1, r')
  else .ok (none, f >>> 1, r)

/-- Modelled from the spec (§4.1): conditional opaque byte-block field of
externally-known length `size`.  Bit = 0 returns `none`; bit = 1 decodes a
signed 32-bit relative offset and reads the `size`-byte payload at
`base + offset`; only the 4 offset bytes are consumed from the main
cursor. -/
def read_bitflag_dump (f : Nat) (r : Raf) (size : Int) (base : Int) :
    Except String (Option (List Nat) × Nat × Raf) :=
  if f.testBit 0 then do
    let (off, r') ← r.readI32
    let (bs, _) ← (r'.seek (usizeOfInt (base + off))).readBytes (usizeOfInt size)
    .ok (some bs, f >>> 1, r')
  else .ok (none, f >>> 1, r)

/-- Modelled from the spec (§6): `CReader::read_string` reads a
null-terminated string at the current cursor position. -/
def read_string (r : Raf) : Except String (String × Raf) :=
  r.readCString

end CReader

/-- From `ecu.rs` lines 28-61: the closed enumeration of known
communication-parameter symbols, plus the `UNKNOWN` fallback. -/
inductive ParamName where
  | CP_BAUDRATE
  | CP_GLOBAL_REQUEST_CANIDENTIFIER
  | CP_FUNCTIONAL_REQUEST_CANIDENTIFIER
  | CP_REQUEST_CANIDENTIFIER
  | CP_RESPONSE_CANIDENTIFIER
  | CP_PARTNUMBERID
  | CP_PARTBLOCK
  | CP_HWVERSIONID
  | CP_SWVERSIONID
  | CP_SWVERSIONBLOCK
  | CP_SUPPLIERID
  | CP_SWSUPPLIERBLOCK
  | CP_ADDRESSMODE
  | CP_ADDRESSEXTENSION
  | CP_ROE_RESPONSE_CANIDENTIFIER
  | CP_USE_TIMING_RECEIVED_FROM_ECU
  | CP_STMIN_SUG
  | CP_BLOCKSIZE_SUG
  | CP_P2_TIMEOUT
  | CP_S3_TP_PHYS_TIMER
  | CP_S3_TP_FUNC_TIMER
  | CP_BR_SUG
  | CP_CAN_TRANSMIT
  | CP_BS_MAX
  | CP_CS_MAX
  | CPI_ROUTINECOUNTER
  | CP_REQREPCOUNT
  | CP_P2_EXT_TIMEOUT_7F_78
  | CP_P2_EXT_TIMEOUT_7F_21
  | UNKNOWN
deriving DecidableEq, Repr

/-- From `ecu.rs` lines 70-106: `ParamName::from_string`.  Every string outside
the closed set maps to `UNKNOWN` (the source additionally logs a warning
through `println!`, which has no decoded effect). -/
def ParamName.from_string (txt : String) : ParamName :=
  match txt with
  | "CP_BAUDRATE" => .CP_BAUDRATE
  | "CP_GLOBAL_REQUEST_CANIDENTIFIER" => .CP_GLOBAL_REQUEST_CANIDENTIFIER
  | "CP_FUNCTIONAL_REQUEST_CANIDENTIFIER" => .CP_FUNCTIONAL_REQUEST_CANIDENTIFIER
  | "CP_REQUEST_CANIDENTIFIER" => .CP_REQUEST_CANIDENTIFIER
  | "CP_RESPONSE_CANIDENTIFIER" => .CP_RESPONSE_CANIDENTIFIER
  | "CP_PARTNUMBERID" => .CP_PARTNUMBERID
  | "CP_PARTBLOCK" => .CP_PARTBLOCK
  | "CP_HWVERSIONID" => .CP_HWVERSIONID
  | "CP_SWVERSIONID" => .CP_SWVERSIONID
  | "CP_SWVERSIONBLOCK" => .CP_SWVERSIONBLOCK
  | "CP_SUPPLIERID" => .CP_SUPPLIERID
  | "CP_SWSUPPLIERBLOCK" => .CP_SWSUPPLIERBLOCK
  | "CP_ADDRESSMODE" => .CP_ADDRESSMODE
  | "CP_ADDRESSEXTENSION" => .CP_ADDRESSEXTENSION
  | "CP_ROE_RESPONSE_CANIDENTIFIER" => .CP_ROE_RESPONSE_CANIDENTIFIER
  | "CP_USE_TIMING_RECEIVED_FROM_ECU" => .CP_USE_TIMING_RECEIVED_FROM_ECU
  | "CP_STMIN_SUG" => .CP_STMIN_SUG
  | "CP_BLOCKSIZE_SUG" => .CP_BLOCKSIZE_SUG
  | "CP_P2_TIMEOUT" => .CP_P2_TIMEOUT
  | "CP_S3_TP_PHYS_TIMER" => .CP_S3_TP_PHYS_TIMER
  | "CP_S3_TP_FUNC_TIMER" => .CP_S3_TP_FUNC_TIMER
  | "CP_BR_SUG" => .CP_BR_SUG
  | "CP_CAN_TRANSMIT" => .CP_CAN_TRANSMIT
  | "CP_BS_MAX" => .CP_BS_MAX
  | "CP_CS_MAX" => .CP_CS_MAX
  | "CPI_ROUTINECOUNTER" => .CPI_ROUTINECOUNTER
  | "CP_REQREPCOUNT" => .CP_REQREPCOUNT
  | "CP_P2_EXT_TIMEOUT_7F_78" => .CP_P2_EXT_TIMEOUT_7F_78
  | "CP_P2_EXT_TIMEOUT_7F_21" => .CP_P2_EXT_TIMEOUT_7F_21
  | _ => .UNKNOWN

/-- The 29 match arms of `ParamName::from_string`, in source order. -/
def knownParamNames : List String :=
  ["CP_BAUDRATE", "CP_GLOBAL_REQUEST_CANIDENTIFIER",
   "CP_FUNCTIONAL_REQUEST_CANIDENTIFIER", "CP_REQUEST_CANIDENTIFIER",
   "CP_RESPONSE_CANIDENTIFIER", "CP_PARTNUMBERID", "CP_PARTBLOCK",
   "CP_HWVERSIONID", "CP_SWVERSIONID", "CP_SWVERSIONBLOCK",
   "CP_SUPPLIERID", "CP_SWSUPPLIERBLOCK", "CP_ADDRESSMODE",
   "CP_ADDRESSEXTENSION", "CP_ROE_RESPONSE_CANIDENTIFIER",
   "CP_USE_TIMING_RECEIVED_FROM_ECU", "CP_STMIN_SUG", "CP_BLOCKSIZE_SUG",
   "CP_P2_TIMEOUT", "CP_S3_TP_PHYS_TIMER", "CP_S3_TP_FUNC_TIMER",
   "CP_BR_SUG", "CP_CAN_TRANSMIT", "CP_BS_MAX", "CP_CS_MAX",
   "CPI_ROUTINECOUNTER", "CP_REQREPCOUNT", "CP_P2_EXT_TIMEOUT_7F_78",
   "CP_P2_EXT_TIMEOUT_7F_21"]

/-- From `ecu.rs` lines 7-12: a pool locator inside an ECU. -/
structure block where
  block_offset : Int
  entry_count : Int
  entry_size : Int
  block_size : Int
deriving DecidableEq, Repr

/-- From `ecu.rs` lines 15-22: `block::new`.  Four conditional 32-bit fields in
fixed order; the decoded offset is immediately biased by the externally
supplied base `offset` (the ECU's computed data-section start). -/
def block.new (f : Nat) (r : Raf) (offset : Int) :
    Except String (block × Nat × Raf) := do
  let (v1, f, r) ← CReader.read_bitflag_i32 f r 0
  let (v2, f, r) ← CReader.read_bitflag_i32 f r 0
  let (v3, f, r) ← CReader.read_bitflag_i32 f r 0
  let (v4, f, r) ← CReader.read_bitflag_i32 f r 0
  .ok ({ block_offset := v1 + offset, entry_count := v2,
         entry_size := v3, block_size := v4 }, f, r)

/-- From `ecu.rs` lines 418-428: one named protocol-parameter group. -/
structure ECUInterface where
  name : Option String
  name_ctf : Int
  desc_ctf : Int
  version : Option String
  com_param_count : Int
  com_param_list_offset : Int
  unk6 : Int
  com_parameters : List String
  base_addr : Int
deriving DecidableEq, Repr

/-- From `ecu.rs` lines 447-453: the name-table loop of `ECUInterface::new`.
For each entry, seek to the table slot, read a relative pointer, follow it
to an absolute string and collect it (pointer-to-pointer indirection). -/
def ECUInterface.readNames (foffset : Int) :
    Nat → Nat → Raf → Except String (List String × Raf)
  | _, 0, r => .ok ([], r)
  | idx, n + 1, r => do
    let r := r.seek (usizeOfInt (foffset + idx * 4))
    let (p, r) ← r.readI32
    let r := r.seek (usizeOfInt (p + foffset))
    let (s, r) ← CReader.read_string r
    let (rest, r) ← ECUInterface.readNames foffset (idx + 1) n r
    .ok (s :: rest, r)

/-- From `ecu.rs` lines 431-466: `ECUInterface::new`.  The mask is seeded from a
signed 32-bit read (`as u64` sign-extends); the scalar read named
`version` in the source is decoded and then discarded (the struct stores
the earlier `version_str`). -/
def ECUInterface.new (r : Raf) (base_addr : Int) :
    Except String (ECUInterface × Raf) := do
  let r := r.seek (usizeOfInt base_addr)
  let (bf, r) ← r.readI32
  let f := usizeOfInt bf
  let (name, f, r) ← CReader.read_bitflag_string f r base_addr
  let (name_ctf, f, r) ← CReader.read_bitflag_i32 f r (-1)
  let (desc_ctf, f, r) ← CReader.read_bitflag_i32 f r (-1)
  let (version_str, f, r) ← CReader.read_bitflag_string f r base_addr
  let (_version, f, r) ← CReader.read_bitflag_i32 f r 0
  let (com_param_count, f, r) ← CReader.read_bitflag_i32 f r 0
  let (com_param_list_offset, f, r) ← CReader.read_bitflag_i32 f r 0
  let (unk6, _f, r) ← CReader.read_bitflag_i32 f r 0
  let com_param_foffset := com_param_list_offset + base_addr
  let (com_parameters, r) ←
    ECUInterface.readNames com_param_foffset 0 com_param_count.toNat r
  .ok ({ name, name_ctf, desc_ctf, version := version_str,
         com_param_count, com_param_list_offset, unk6,
         com_parameters, base_addr }, r)

/-- From `ecu.rs` lines 110-123: one named configuration value. -/
structure ComParameter where
  param_index : Int
  unk3 : Int
  sub_iface_index : Int
  unk5 : Int
  unk_ctf : Int
  phrase : Int
  dump_size : Int
  dump : List Nat
  com_param_value : Int
  com_param_name : String
  base_addr : Int
deriving DecidableEq, Repr

/-- From `ecu.rs` lines 126-161: `ComParameter::new`.  A 16-bit mask gates eight
fields; the 32-bit value is assembled from the dump only when
`dump_size == 4`, any other size panics ("Parent has no matching key");
the name is resolved by indexing the parent interface's name table
(`as usize` on the index; out of range panics). -/
def ComParameter.new (r : Raf) (base_addr : Int) (parent_iface : ECUInterface) :
    Except String (ComParameter × Raf) := do
  let r := r.seek (usizeOfInt base_addr)
  let (bf, r) ← r.readU16
  let f := bf
  let (param_index, f, r) ← CReader.read_bitflag_i16 f r 0
  let (unk3, f, r) ← CReader.read_bitflag_i16 f r 0
  let (sub_iface_index, f, r) ← CReader.read_bitflag_i16 f r 0
  let (unk5, f, r) ← CReader.read_bitflag_i16 f r 0
  let (unk_ctf, f, r) ← CReader.read_bitflag_i32 f r 0
  let (phrase, f, r) ← CReader.read_bitflag_i16 f r 0
  let (dump_size, f, r) ← CReader.read_bitflag_i32 f r 0
  let (dumpOpt, _f, r) ← CReader.read_bitflag_dump f r dump_size base_addr
  let dump ← match dumpOpt with
    | some d => Except.ok d
    | none => Except.error "called unwrap on a None value"
  let com_param_value ←
    if dump_size = 4 then
      Except.ok (toSigned 32
        ((dump.getD 3 0 <<< 24) ||| (dump.getD 2 0 <<< 16) |||
         (dump.getD 1 0 <<< 8) ||| dump.getD 0 0))
    else Except.error "Parent has no matching key"
  let com_param_name ← match parent_iface.com_parameters.get? (usizeOfInt param_index) with
    | some s => Except.ok s
    | none => Except.error "index out of bounds"
  .ok ({ param_index, unk3, sub_iface_index, unk5, unk_ctf, phrase,
         dump_size, dump, com_param_value, com_param_name, base_addr }, r)

/-- From `ecu.rs` lines 164-179: one concrete interface binding. -/
structure ECUInterfaceSubType where
  name : String
  name_ctf : Int
  desc_ctf : Int
  base_addr : Int
  index : Int
  unk3 : Int
  unk4 : Int
  unk5 : Int
  unk6 : Int
  unk7 : Int
  unk8 : Int
  unk9 : Int
  unk10 : Int
  com_params : List ComParameter
deriving DecidableEq, Repr

/-- From `ecu.rs` lines 182-206: `ECUInterfaceSubType::new`.  A 32-bit mask; the
name is mandatory (`unwrap`); `com_params` starts empty. -/
def ECUInterfaceSubType.new (r : Raf) (base_addr : Int) (index : Int) :
    Except String (ECUInterfaceSubType × Raf) := do
  let r := r.seek (usizeOfInt base_addr)
  let (bf, r) ← r.readU32
  let f := bf
  let (nameOpt, f, r) ← CReader.read_bitflag_string f r base_addr
  let name ← match nameOpt with
    | some s => Except.ok s
    | none => Except.error "called unwrap on a None value"
  let (name_ctf, f, r) ← CReader.read_bitflag_i32 f r (-1)
  let (desc_ctf, f, r) ← CReader.read_bitflag_i32 f r (-1)
  let (unk3, f, r) ← CReader.read_bitflag_i16 f r 0
  let (unk4, f, r) ← CReader.read_bitflag_i16 f r 0
  let (unk5, f, r) ← CReader.read_bitflag_i32 f r 0
  let (unk6, f, r) ← CReader.read_bitflag_i32 f r 0
  let (unk7, f, r) ← CReader.read_bitflag_i32 f r 0
  let (unk8, f, r) ← CReader.read_bitflag_u8 f r 0
  let (unk9, f, r) ← CReader.read_bitflag_u8 f r 0
  let (unk10, _f, r) ← CReader.read_bitflag_u8 f r 0
  .ok ({ index, base_addr, name, name_ctf, desc_ctf, unk3, unk4,
         unk5, unk6, unk7, unk8 := (unk8 : Int), unk9 := (unk9 : Int),
         unk10 := (unk10 : Int), com_params := [] }, r)

/-- From `ecu.rs` lines 233-261: a variant-detection pattern.  Its decoder
(`ECUVarientPattern::new`) is only reachable through
`ECUVarient::create_var_patterns`, which is an empty stub in the source,
so no value of this type is ever constructed. -/
structure ECUVarientPattern where
  unk_buffer_size : Int
  unk_buffer : List Nat
  unk_3 : Int
  unk_4 : Int
  unk_5 : Int
  vendor_name : Option String
  unk_7 : Int
  unk_8 : Int
  unk_9 : Int
  unk_10 : Int
  unk_11 : Int
  unk_12 : Int
  unk_13 : Int
  unk_14 : Int
  unk_15 : Int
  unk_16 : List Nat
  unk_17 : Int
  unk_18 : Int
  unk_19 : Int
  unk_20 : Int
  unk_21 : Option String
  unk_22 : Int
  unk_23 : Int
  variant_id : Int
  pattern_type : Int
  base_addr : Int

/-- From `ecu.rs` line 415: `VCDomain` is an empty struct in the source. -/
structure VCDomain where
deriving DecidableEq, Repr

/-- Modelled from the spec (§6): the diagnostic-service decoder
(`crate::diag::DiagService`, not under `src/`) — "this core computes only
*where* and in what order each service lives, not its internal encoding";
only its absolute base address and ordinal index are modelled. -/
structure DiagService where
  base_addr : Int
  index : Int
deriving DecidableEq, Repr

/-- Modelled from the spec (§6): construct one diagnostic service from its
computed location; the internal byte grammar is out of scope. -/
def DiagService.new (base_addr : Int) (index : Int) : DiagService :=
  { base_addr, index }

/-- From `ecu.rs` lines 299-335: one hardware/software build of an ECU. -/
structure ECUVarient where
  name : Option String
  name_ctf : Int
  desc_ctf : Int
  unk_str1 : Option String
  unk_str2 : Option String
  unk1 : Int
  matching_pattern_count : Int
  matching_pattern_offset : Int
  subsection_b_count : Int
  subsection_b_offset : Int
  com_param_count : Int
  com_param_offset : Int
  subsection_d_count : Int
  subsection_d_offset : Int
  diag_services_count : Int
  diag_services_offset : Int
  subsection_f_count : Int
  subsection_f_offset : Int
  subsection_g_count : Int
  subsection_g_offset : Int
  subsection_h_count : Int
  subsection_h_offset : Int
  VCDomainsCount : Int
  VCDomainsOffset : Int
  negative_resp_name : String
  unk_byte : Int
  vc_domain_pool_offsets : List Int
  diag_services_pool_offsets : List Int
  vc_domains : List VCDomain
  varient_patterns : List ECUVarientPattern
  diag_services : List DiagService

/-- From `ecu.rs` lines 382 and 385: read `n` consecutive little-endian signed
32-bit values (`(0..n).map(|i| reader.read_i32().unwrap())`). -/
def readI32List : Nat → Raf → Except String (List Int × Raf)
  | 0, r => .ok ([], r)
  | n + 1, r => do
    let (v, r) ← r.readI32
    let (rest, r) ← readI32List n r
    .ok (v :: rest, r)

/-- From `ecu.rs` lines 338-394: `ECUVarient::new`.  The variant's own byte
range is copied out of the shared cursor into a fresh slice-local reader
(`varreader`), isolating its relative offsets.  After the header, the
VC-domain pointer table is read at `VCDomainsOffset` with `VCDomainsCount`
entries, and the table at `diag_services_offset` is read with
`ret.VCDomainsCount` entries as well — the source's line 385 range is
`(0..ret.VCDomainsCount)`, not `(0..ret.diag_services_count)`.  The four
`create_*` child decoders (lines 396-411) are empty stubs, so the child
lists stay empty (the zeroed initial value of the struct).  The `lang` and
`parent_ecu` arguments of the source are used only by those stubs and are
dropped here. -/
def ECUVarient.new (r : Raf) (base_addr : Int) (block_size : Int) :
    Except String (ECUVarient × Raf) := do
  let r := r.seek (usizeOfInt base_addr)
  let (varient_bytes, r) ← r.readBytes (usizeOfInt block_size)
  let vr : Raf := { data := varient_bytes, pos := 0 }
  let (bf, vr) ← vr.readU32
  let f := bf
  let (_skip, vr) ← vr.readI32
  let (name, f, vr) ← CReader.read_bitflag_string f vr 0
  let (name_ctf, f, vr) ← CReader.read_bitflag_i32 f vr (-1)
  let (desc_ctf, f, vr) ← CReader.read_bitflag_i32 f vr (-1)
  let (unk_str1, f, vr) ← CReader.read_bitflag_string f vr 0
  let (unk_str2, f, vr) ← CReader.read_bitflag_string f vr 0
  let (unk1, f, vr) ← CReader.read_bitflag_i32 f vr 0
  let (matching_pattern_count, f, vr) ← CReader.read_bitflag_i32 f vr 0
  let (matching_pattern_offset, f, vr) ← CReader.read_bitflag_i32 f vr 0
  let (subsection_b_count, f, vr) ← CReader.read_bitflag_i32 f vr 0
  let (subsection_b_offset, f, vr) ← CReader.read_bitflag_i32 f vr 0
  let (com_param_count, f, vr) ← CReader.read_bitflag_i32 f vr 0
  let (com_param_offset, f, vr) ← CReader.read_bitflag_i32 f vr 0
  let (subsection_d_count, f, vr) ← CReader.read_bitflag_i32 f vr 0
  let (subsection_d_offset, f, vr) ← CReader.read_bitflag_i32 f vr 0
  let (diag_services_count, f, vr) ← CReader.read_bitflag_i32 f vr 0
  let (diag_services_offset, f, vr) ← CReader.read_bitflag_i32 f vr 0
  let (subsection_f_count, f, vr) ← CReader.read_bitflag_i32 f vr 0
  let (subsection_f_offset, f, vr) ← CReader.read_bitflag_i32 f vr 0
  let (subsection_g_count, f, vr) ← CReader.read_bitflag_i32 f vr 0
  let (subsection_g_offset, f, vr) ← CReader.read_bitflag_i32 f vr 0
  let (subsection_h_count, f, vr) ← CReader.read_bitflag_i32 f vr 0
  let (subsection_h_offset, f, vr) ← CReader.read_bitflag_i32 f vr 0
  let (vcDomainsCount, f, vr) ← CReader.read_bitflag_i32 f vr 0
  let (vcDomainsOffset, f, vr) ← CReader.read_bitflag_i32 f vr 0
  let (negRespOpt, f, vr) ← CReader.read_bitflag_string f vr 0
  let negative_resp_name := negRespOpt.getD ""
  let (unk_byte, _f, vr) ← CReader.read_bitflag_i8 f vr 0
  let vr := vr.seek (usizeOfInt vcDomainsOffset)
  let (vc_domain_pool_offsets, vr) ← readI32List vcDomainsCount.toNat vr
  let vr := vr.seek (usizeOfInt diag_services_offset)
  let (diag_services_pool_offsets, _vr) ← readI32List vcDomainsCount.toNat vr
  .ok ({ name, name_ctf, desc_ctf, unk_str1, unk_str2, unk1,
         matching_pattern_count, matching_pattern_offset,
         subsection_b_count, subsection_b_offset,
         com_param_count, com_param_offset,
         subsection_d_count, subsection_d_offset,
         diag_services_count, diag_services_offset,
         subsection_f_count, subsection_f_offset,
         subsection_g_count, subsection_g_offset,
         subsection_h_count, subsection_h_offset,
         VCDomainsCount := vcDomainsCount, VCDomainsOffset := vcDomainsOffset,
         negative_resp_name, unk_byte,
         vc_domain_pool_offsets, diag_services_pool_offsets,
         vc_domains := [], varient_patterns := [], diag_services := [] }, r)

/-- Modelled from the spec (§6): the container header (`CFFHeader`, decoded
in `crate::cxf`, not under `src/`) carries at least the string-pool size
and the container-header size; only the two fields `ECU::new` reads are
modelled. -/
structure CFFHeader where
  size_of_str_pool : Int
  cff_header_size : Int
deriving DecidableEq, Repr

/-- Modelled from the spec (§6): the fixed stub-header size constant
(`STUB_HEADER_SIZE` of `crate::cxf`, not under `src/`).  The spec names the
constant but does not fix its value; the theorems below are insensitive to
the concrete number chosen here. -/
def STUB_HEADER_SIZE : Int := 0x410

/-- From `ecu.rs` line 544: each ECU's data-section base,
`header.size_of_str_pool + STUB_HEADER_SIZE + header.cff_header_size + 4`. -/
def dataOffset (header : CFFHeader) : Int :=
  header.size_of_str_pool + STUB_HEADER_SIZE + header.cff_header_size + 4

/-- The eleven leading conditional fields of the ECU record
(`ecu.rs` lines 532-542), in stream order. -/
structure ECUHeadFields where
  name : Option String
  ecuname_ctf : Int
  ecudesc_ctf : Int
  xml_version : Option String
  iface_blockcount : Int
  iface_tableoffset : Int
  subiface_count : Int
  subiface_offset : Int
  ecu_classname : Option String
  unk7 : Option String
  unk8 : Option String
deriving DecidableEq, Repr

/-- The six conditional scalar fields of the ECU record
(`ecu.rs` lines 546-552), in stream order. -/
structure ECUScalars where
  ign_required : Int
  unk2 : Int
  unk_blockcount : Int
  unk_blockoffset : Int
  ecu_sgml_src : Int
  unk6_rel_offset : Int
deriving DecidableEq, Repr

/-- The eight pool descriptors of the ECU record (`ecu.rs` lines 554-561),
named after the local bindings of the source, in stream order. -/
structure Blocks8 where
  ecuvarient_block : block
  diagjob_block : block
  dtc_block : block
  vc_domain_block : block
  env_block : block
  pres_block : block
  info_block : block
  unk_block : block
deriving DecidableEq, Repr

/-- From `ecu.rs` lines 470-519: one container entry.  The source additionally
stores a non-owning back-reference `parent_container: &CContainer`, used
only during construction; it carries no decoded data and is not modelled. -/
structure ECU where
  name : String
  ecuname_ctf : Int
  ecudesc_ctf : Int
  xml_version : String
  interface_block_count : Int
  interface_table_offset : Int
  sub_interface_count : Int
  sub_interface_offset : Int
  ecu_class_name : String
  unk_str7 : String
  unk_str8 : String
  ignition_required : Int
  unk2 : Int
  unk_block_count : Int
  unk_block_offset : Int
  ecu_sgml_src : Int
  unk6_relative_offset : Int
  ecuvarient : block
  diagjob : block
  dtc : block
  env : block
  vcdomain : block
  presentations : block
  info : block
  unk_block : block
  unk39 : Int
  ecu_ifaces : List ECUInterface
  ecu_ifaces_subtype : List ECUInterfaceSubType
  ecu_varient : List ECUVarient
  diag_services : List DiagService
  base_addr : Int

/-- From `ecu.rs` lines 532-542: the eleven leading conditional fields of
`ECU::new`, consuming mask bits 0-10 in stream order. -/
def ECU.readHead (f : Nat) (r : Raf) (base_addr : Int) :
    Except String (ECUHeadFields × Nat × Raf) := do
  let (name, f, r) ← CReader.read_bitflag_string f r base_addr
  let (ecuname_ctf, f, r) ← CReader.read_bitflag_i32 f r (-1)
  let (ecudesc_ctf, f, r) ← CReader.read_bitflag_i32 f r (-1)
  let (xml_version, f, r) ← CReader.read_bitflag_string f r base_addr
  let (iface_blockcount, f, r) ← CReader.read_bitflag_i32 f r 0
  let (iface_tableoffset, f, r) ← CReader.read_bitflag_i32 f r 0
  let (subiface_count, f, r) ← CReader.read_bitflag_i32 f r 0
  let (subiface_offset, f, r) ← CReader.read_bitflag_i32 f r 0
  let (ecu_classname, f, r) ← CReader.read_bitflag_string f r base_addr
  let (unk7, f, r) ← CReader.read_bitflag_string f r base_addr
  let (unk8, f, r) ← CReader.read_bitflag_string f r base_addr
  .ok ({ name, ecuname_ctf, ecudesc_ctf, xml_version, iface_blockcount,
         iface_tableoffset, subiface_count, subiface_offset,
         ecu_classname, unk7, unk8 }, f, r)

/-- From `ecu.rs` lines 546-552: the six conditional scalar fields of
`ECU::new` that follow the head strings. -/
def ECU.readScalars (f : Nat) (r : Raf) :
    Except String (ECUScalars × Nat × Raf) := do
  let (ign_required, f, r) ← CReader.read_bitflag_i16 f r 0
  let (unk2, f, r) ← CReader.read_bitflag_i16 f r 0
  let (unk_blockcount, f, r) ← CReader.read_bitflag_i16 f r 0
  let (unk_blockoffset, f, r) ← CReader.read_bitflag_i32 f r 0
  let (ecu_sgml_src, f, r) ← CReader.read_bitflag_i16 f r 0
  let (unk6_rel_offset, f, r) ← CReader.read_bitflag_i32 f r 0
  .ok ({ ign_required, unk2, unk_blockcount, unk_blockoffset,
         ecu_sgml_src, unk6_rel_offset }, f, r)

/-- From `ecu.rs` lines 554-561: the eight `block::new` calls of `ECU::new`, in
source order — `ecuvarient_block`, `diagjob_block`, `dtc_block`,
`vc_domain_block`, `env_block`, `pres_block`, `info_block`, `unk_block` —
all biased by the same externally supplied data-section offset. -/
def ECU.readBlocks (f : Nat) (r : Raf) (offset : Int) :
    Except String (Blocks8 × Nat × Raf) := do
  let (ecuvarient_block, f, r) ← block.new f r offset
  let (diagjob_block, f, r) ← block.new f r offset
  let (dtc_block, f, r) ← block.new f r offset
  let (vc_domain_block, f, r) ← block.new f r offset
  let (env_block, f, r) ← block.new f r offset
  let (pres_block, f, r) ← block.new f r offset
  let (info_block, f, r) ← block.new f r offset
  let (unk_block, f, r) ← block.new f r offset
  .ok ({ ecuvarient_block, diagjob_block, dtc_block, vc_domain_block,
         env_block, pres_block, info_block, unk_block }, f, r)

/-- From `ecu.rs` lines 567-573: the interface-table loop of `ECU::new`: for
each entry, seek to the table slot, read a relative block offset and
decode one `ECUInterface` at `iface_table_addr + offset`. -/
def ECU.readInterfaces (iface_table_addr : Int) :
    Nat → Nat → Raf → Except String (List ECUInterface × Raf)
  | _, 0, r => .ok ([], r)
  | idx, n + 1, r => do
    let r := r.seek (usizeOfInt (iface_table_addr + idx * 4))
    let (iface_blockoffset, r) ← r.readI32
    let (iface, r) ← ECUInterface.new r (iface_table_addr + iface_blockoffset)
    let (rest, r) ← ECU.readInterfaces iface_table_addr (idx + 1) n r
    .ok (iface :: rest, r)

/-- From `ecu.rs` lines 575-583: the sub-interface-table loop of `ECU::new`.
The table address is truncated to `usize` before the loop
(`(base_addr + subiface_offset as i64) as usize`). -/
def ECU.readSubInterfaces (ct_table_addr : Nat) :
    Nat → Nat → Raf → Except String (List ECUInterfaceSubType × Raf)
  | _, 0, r => .ok ([], r)
  | idx, n + 1, r => do
    let r := r.seek ((ct_table_addr + idx * 4) % 2 ^ 64)
    let (actual_blk_offset, r) ← r.readI32
    let ct_base_addr := (ct_table_addr : Int) + actual_blk_offset
    let (sub, r) ← ECUInterfaceSubType.new r ct_base_addr idx
    let (rest, r) ← ECU.readSubInterfaces ct_table_addr (idx + 1) n r
    .ok (sub :: rest, r)

/-- From `ecu.rs` lines 585-622: assembling the `Self` literal of `ECU::new`.
`name`, `xml_version` and `ecu_class_name` are unwrapped (`unwrap()`
panics when the conditional field was absent); `unk_str7` and `unk_str8`
fall back to `"N/A"` and `"Unknown"` (`unwrap_or`). -/
def ECU.assemble (h : ECUHeadFields) (s : ECUScalars) (b8 : Blocks8)
    (unk39 : Int) (ifaces : List ECUInterface)
    (subifaces : List ECUInterfaceSubType) (base_addr : Int) :
    Except String ECU :=
  match h.name, h.xml_version, h.ecu_classname with
  | some name, some xml_version, some ecu_class_name =>
    .ok { base_addr,
          ecu_ifaces := ifaces,
          ecu_ifaces_subtype := subifaces,
          ecuvarient := b8.ecuvarient_block,
          diagjob := b8.diagjob_block,
          dtc := b8.dtc_block,
          env := b8.env_block,
          vcdomain := b8.vc_domain_block,
          presentations := b8.pres_block,
          info := b8.info_block,
          unk_block := b8.unk_block,
          ignition_required := s.ign_required,
          unk2 := s.unk2,
          unk_block_count := s.unk_blockcount,
          unk_block_offset := s.unk_blockoffset,
          ecu_sgml_src := s.ecu_sgml_src,
          unk6_relative_offset := s.unk6_rel_offset,
          ecu_varient := [],
          diag_services := [],
          name, ecuname_ctf := h.ecuname_ctf, ecudesc_ctf := h.ecudesc_ctf,
          xml_version,
          interface_block_count := h.iface_blockcount,
          interface_table_offset := h.iface_tableoffset,
          sub_interface_count := h.subiface_count,
          sub_interface_offset := h.subiface_offset,
          ecu_class_name,
          unk_str7 := h.unk7.getD "N/A",
          unk_str8 := h.unk8.getD "Unknown",
          unk39 }
  | _, _, _ => .error "called unwrap on a None value"

/-- From `ecu.rs` lines 529-622: the body of `ECU::new` after the 48-bit mask
has been assembled — all conditional fields, the 8 block descriptors,
`unk39`, the two eagerly decoded interface tables, and the construction of
the `res` value (whose mandatory strings are unwrapped). -/
def ECU.decodeBody (f : Nat) (r : Raf) (header : CFFHeader) (base_addr : Int) :
    Except String (ECU × Raf) := do
  let (h, f, r) ← ECU.readHead f r base_addr
  let (s, f, r) ← ECU.readScalars f r
  let (b8, f, r) ← ECU.readBlocks f r (dataOffset header)
  let (unk39, _f, r) ← CReader.read_bitflag_i32 f r 0
  let iface_table_addr := base_addr + h.iface_tableoffset
  let (ecu_interfaces, r) ←
    ECU.readInterfaces iface_table_addr 0 h.iface_blockcount.toNat r
  let ct_table_addr := usizeOfInt (base_addr + h.subiface_offset)
  let (ecu_subinterfaces, r) ←
    ECU.readSubInterfaces ct_table_addr 0 h.subiface_count.toNat r
  let ecu ← ECU.assemble h s b8 unk39 ecu_interfaces ecu_subinterfaces base_addr
  .ok (ecu, r)

/-- From `ecu.rs` line 529: `println!("Skip {:?}", reader.read_i32())` — the
skipped 32-bit read whose `Result` is only printed, never unwrapped, so a
failed read is not fatal and (per the byte-source model) leaves the cursor
unmoved. -/
def skipI32 (r : Raf) : Raf :=
  match r.readI32 with
  | .ok (_, r') => r'
  | .error _ => r

/-- From `ecu.rs` lines 524-527 and 529: read the 32-bit mask and the 16-bit
extension mask, combine them into the 48-bit flag word
(`ecu_bitflags | ecu_bitflags_ext << 32`, with the `i16` sign-extended by
`as u64` and the shift wrapping at 64 bits), skip one 32-bit value, then
run the decode body. -/
def ECU.decodeFields (r : Raf) (header : CFFHeader) (base_addr : Int) :
    Except String (ECU × Raf) := do
  let (ecu_bitflags, r) ← r.readU32
  let (ecu_bitflags_ext, r) ← r.readI16
  let f := ecu_bitflags ||| (usizeOfInt ecu_bitflags_ext <<< 32) % 2 ^ 64
  let r := skipI32 r
  ECU.decodeBody f r header base_addr

/-- From `ecu.rs` lines 666-669: `ECU::read_ecu_pool` — seek to the block's
resolved absolute offset and read `entry_count as usize * entry_size as
usize` bytes in one read (the product wraps at the `usize` width). -/
def ECU.read_ecu_pool (r : Raf) (blk : block) : Except String (List Nat × Raf) :=
  let r := r.seek (usizeOfInt blk.block_offset)
  r.readBytes (usizeOfInt blk.entry_count * usizeOfInt blk.entry_size % 2 ^ 64)

/-- From `ecu.rs` lines 635-643: the per-entry loop of `create_diag_pool`: each
pool entry carries an offset, a size, an integrity code and a config word,
read sequentially from the pool reader; the child's base address is
`offset + diagjob.block_offset`. -/
def ECU.readDiagEntries (block_offset : Int) :
    Nat → Nat → Raf → Except String (List DiagService × Raf)
  | _, 0, dr => .ok ([], dr)
  | idx, n + 1, dr => do
    let (offset, dr) ← dr.readI32
    let (_size, dr) ← dr.readI32
    let (_crc, dr) ← dr.readI32
    let (_config, dr) ← dr.readI16
    let diag_base_addr := offset + block_offset
    let s := DiagService.new diag_base_addr idx
    let (rest, dr) ← ECU.readDiagEntries block_offset (idx + 1) n dr
    .ok (s :: rest, dr)

/-- From `ecu.rs` lines 631-644: `ECU::create_diag_pool` — read the diag-job
pool wholesale, then walk its `entry_count` entries. -/
def ECU.create_diag_pool (e : ECU) (r : Raf) : Except String (ECU × Raf) := do
  let (pool, r) ← ECU.read_ecu_pool r e.diagjob
  let dreader : Raf := { data := pool, pos := 0 }
  let (services, _) ←
    ECU.readDiagEntries e.diagjob.block_offset 0 e.diagjob.entry_count.toNat dreader
  .ok ({ e with diag_services := services }, r)

/-- From `ecu.rs` lines 650-662: the per-entry loop of `create_ecu_varients`:
seek the pool reader to `index * entry_size`, read the entry's offset,
size and attribute word, and decode one `ECUVarient` from the main reader
at `entry_offset + block_offset` with the entry's own size. -/
def ECU.readVarientEntries (vreader : Raf) (block_offset : Int) (entry_size : Int) :
    Nat → Nat → Raf → Except String (List ECUVarient × Raf)
  | _, 0, r => .ok ([], r)
  | idx, n + 1, r => do
    let vr := vreader.seek (idx * usizeOfInt entry_size % 2 ^ 64)
    let (entry_offset, vr) ← vr.readI32
    let (varient_entry_size, vr) ← vr.readI32
    let (_pool_entry_attrib, _vr) ← vr.readU16
    let varient_block_address := entry_offset + block_offset
    let (v, r) ← ECUVarient.new r varient_block_address varient_entry_size
    let (rest, r) ← ECU.readVarientEntries vreader block_offset entry_size (idx + 1) n r
    .ok (v :: rest, r)

/-- From `ecu.rs` lines 646-664: `ECU::create_ecu_varients` — read the variant
pool wholesale, then walk its `entry_count` entries. -/
def ECU.create_ecu_varients (e : ECU) (r : Raf) : Except String (ECU × Raf) := do
  let (pool, r) ← ECU.read_ecu_pool r e.ecuvarient
  let vreader : Raf := { data := pool, pos := 0 }
  let (vars, r) ←
    ECU.readVarientEntries vreader e.ecuvarient.block_offset
      e.ecuvarient.entry_size 0 e.ecuvarient.entry_count.toNat r
  .ok ({ e with ecu_varient := vars }, r)

/-- From `ecu.rs` lines 522-629: `ECU::new`.  Its Rust return type is `!`: after
decoding all fields, eagerly building the interface tables and populating
the diagnostic-service and variant pools, it prints the result and
unconditionally executes `panic!("Done")` — the constructed `res` value is
never returned to the caller. -/
def ECU.new (r : Raf) (header : CFFHeader) (base_addr : Int) :
    Except String ECU := do
  let (res, r) ← ECU.decodeFields r header base_addr
  let (res, r) ← res.create_diag_pool r
  let (_res, _r) ← res.create_ecu_varients r
  .error "Done"

/-- The `n`-th (0-based) Block descriptor decoded from the stream when
`block::new` is iterated from a given mask/cursor state — the formal
reading of "the `n`-th descriptor read from the stream" in the spec's
fixed-order sentence. -/
def nthBlockRead (f : Nat) (r : Raf) (offset : Int) :
    Nat → Except String (block × Nat × Raf)
  | 0 => block.new f r offset
  | n + 1 => do
    let (_, f, r) ← block.new f r offset
    nthBlockRead f r offset n

/-- The raw (unbiased) offset field of the `n`-th (0-based) Block
descriptor decoded from the stream: skip `n` `block::new` reads, then
perform the conditional 32-bit read that `block::new` would bias. -/
def nthBlockRawOffset (f : Nat) (r : Raf) (offset : Int) :
    Nat → Except String Int
  | 0 => (CReader.read_bitflag_i32 f r 0).map (fun t => t.1)
  | n + 1 => do
    let (_, f, r) ← block.new f r offset
    nthBlockRawOffset f r offset n

end CBF


namespace CBF

/-- Little-endian byte encoding of a 32-bit value, for building the
concrete test vectors below. -/
def i32le (v : Nat) : List Nat := [v % 256, v / 256 % 256, v / 65536 % 256, v / 16777216 % 256]

/-- Concrete test vector (spec Scenario A): a `ComParameter` record whose
16-bit mask `0xC1` enables `param_index`, `dump_size` and the dump; the
index is 1, the size 4, the dump offset 12, and the dump `[0x32, 0, 0, 0]`. -/
def comParamBytesA : List Nat :=
  [0xC1, 0, 1, 0, 4, 0, 0, 0, 12, 0, 0, 0, 0x32, 0, 0, 0]

/-- Concrete parent interface (spec Scenario A) with the name table
`["CP_BAUDRATE", "CP_P2_TIMEOUT"]`. -/
def ifaceA : ECUInterface :=
  { name := some "IFACE_A", name_ctf := -1, desc_ctf := -1, version := none,
    com_param_count := 2, com_param_list_offset := 0, unk6 := 0,
    com_parameters := ["CP_BAUDRATE", "CP_P2_TIMEOUT"], base_addr := 0 }

/-- The `ComParameter` decoded from `comParamBytesA` against `ifaceA`. -/
def cpA : ComParameter :=
  { param_index := 1, unk3 := 0, sub_iface_index := 0, unk5 := 0, unk_ctf := 0,
    phrase := 0, dump_size := 4, dump := [0x32, 0, 0, 0], com_param_value := 50,
    com_param_name := "CP_P2_TIMEOUT", base_addr := 0 }

/-- Concrete 32-byte `ECUVarient` record: mask `0xC0C000` enables
`diag_services_count` (= 2), `diag_services_offset` (= 28),
`VCDomainsCount` (= 1) and `VCDomainsOffset` (= 24); one pointer sits in
each table slot. -/
def varBytesC2 : List Nat :=
  [0x00, 0xC0, 0xC0, 0x00,  0, 0, 0, 0,
   2, 0, 0, 0,  28, 0, 0, 0,  1, 0, 0, 0,  24, 0, 0, 0,
   16, 0, 0, 0,  32, 0, 0, 0]

/-- Concrete 148-byte ECU record: 48-bit mask `0x7FFFFFFE0109` (bits 0, 3,
8 enable the three mandatory strings; bits 17-46 enable thirty block
fields), a skipped word, three string offsets (142/144/146, pointing at
the strings "E", "1", "C" at the tail), and thirty 32-bit block fields
whose raw offsets are 1000-1007. -/
def ecuBytesA : List Nat :=
  [0x09, 0x01, 0xFE, 0xFF,  0xFF, 0x7F] ++ i32le 99 ++
  i32le 142 ++ i32le 144 ++ i32le 146 ++
  i32le 1000 ++ i32le 3 ++ i32le 16 ++ i32le 7 ++
  i32le 1001 ++ i32le 0 ++ i32le 0 ++ i32le 0 ++
  i32le 1002 ++ i32le 0 ++ i32le 0 ++ i32le 0 ++
  i32le 1003 ++ i32le 0 ++ i32le 0 ++ i32le 0 ++
  i32le 1004 ++ i32le 0 ++ i32le 0 ++ i32le 0 ++
  i32le 1005 ++ i32le 0 ++ i32le 0 ++ i32le 0 ++
  i32le 1006 ++ i32le 0 ++ i32le 0 ++ i32le 0 ++
  i32le 1007 ++ i32le 0 ++
  [69, 0, 49, 0, 67, 0]

/-- Concrete container header: 100-byte string pool, 20-byte container
header, so the data-section base is 100 + 0x410 + 20 + 4 = 1164. -/
def hdrA : CFFHeader := { size_of_str_pool := 100, cff_header_size := 20 }

/-- The 48-bit mask of `ecuBytesA`. -/
def fA : Nat := 0x7FFFFFFE0109

/-- The reader for `ecuBytesA` positioned after the mask and the skipped
word, where `ECU.decodeBody` starts. -/
def rA : Raf := { data := ecuBytesA, pos := 10 }

/-- The head fields decoded from `ecuBytesA`. -/
def headA : ECUHeadFields :=
  { name := some "E", ecuname_ctf := -1, ecudesc_ctf := -1, xml_version := some "1",
    iface_blockcount := 0, iface_tableoffset := 0, subiface_count := 0,
    subiface_offset := 0, ecu_classname := some "C", unk7 := none, unk8 := none }

/-- The scalar fields decoded from `ecuBytesA` (all mask bits unset). -/
def scalA : ECUScalars :=
  { ign_required := 0, unk2 := 0, unk_blockcount := 0, unk_blockoffset := 0,
    ecu_sgml_src := 0, unk6_rel_offset := 0 }

/-- The ECU decoded from `ecuBytesA` with header `hdrA` at base 0. -/
def ecuA : ECU :=
  { name := "E", ecuname_ctf := -1, ecudesc_ctf := -1, xml_version := "1",
    interface_block_count := 0, interface_table_offset := 0,
    sub_interface_count := 0, sub_interface_offset := 0, ecu_class_name := "C",
    unk_str7 := "N/A", unk_str8 := "Unknown",
    ignition_required := 0, unk2 := 0, unk_block_count := 0, unk_block_offset := 0,
    ecu_sgml_src := 0, unk6_relative_offset := 0,
    ecuvarient := ⟨2164, 3, 16, 7⟩, diagjob := ⟨2165, 0, 0, 0⟩,
    dtc := ⟨2166, 0, 0, 0⟩, env := ⟨2168, 0, 0, 0⟩, vcdomain := ⟨2167, 0, 0, 0⟩,
    presentations := ⟨2169, 0, 0, 0⟩, info := ⟨2170, 0, 0, 0⟩,
    unk_block := ⟨2171, 0, 0, 0⟩, unk39 := 0,
    ecu_ifaces := [], ecu_ifaces_subtype := [], ecu_varient := [],
    diag_services := [], base_addr := 0 }

end CBF


namespace CBF

theorem except_bind_ok {ε α β : Type} (a : α) (g : α → Except ε β) :
    (Except.ok a >>= g) = g a := rfl

theorem except_bind_error {ε α β : Type} (e : ε) (g : α → Except ε β) :
    ((Except.error e : Except ε α) >>= g) = .error e := rfl

theorem sr_sr (f m n : Nat) : f >>> m >>> n = f >>> (m + n) := by
  simp [Nat.shiftRight_add]

theorem testBit_shift (f : Nat) (k j : Nat) :
    (f >>> k).testBit j = f.testBit (k + j) := by
  simp [Nat.testBit_shiftRight]

theorem Raf.readBytes_ok {r : Raf} {n : Nat} {bs : List Nat} {r' : Raf}
    (h : r.readBytes n = .ok (bs, r')) :
    bs.length = n ∧ r'.data = r.data ∧ r'.pos = r.pos + n := by
  unfold Raf.readBytes at h
  split at h
  · injection h with h1
    injection h1 with hbs hr
    subst hbs hr
    refine ⟨?_, rfl, rfl⟩
    simp [List.length_take, List.length_drop]
    omega
  · exact absurd h (by simp)


theorem Raf.readU8_ok {r : Raf} {v : Nat} {r' : Raf}
    (h : r.readU8 = .ok (v, r')) :
    r'.data = r.data ∧ r'.pos = r.pos + 1 := by
  unfold Raf.readU8 at h
  cases hb : r.readBytes 1 with
  | error e =>
    rw [hb, except_bind_error] at h
    exact absurd h (by simp)
  | ok p =>
    obtain ⟨bs, r1⟩ := p
    rw [hb, except_bind_ok] at h
    dsimp only at h
    injection h with h1
    injection h1 with hv hr
    subst hr
    exact ⟨(Raf.readBytes_ok hb).2.1, (Raf.readBytes_ok hb).2.2⟩


theorem Raf.readU16_ok {r : Raf} {v : Nat} {r' : Raf}
    (h : r.readU16 = .ok (v, r')) :
    r'.data = r.data ∧ r'.pos = r.pos + 2 := by
  unfold Raf.readU16 at h
  cases hb : r.readBytes 2 with
  | error e =>
    rw [hb, except_bind_error] at h
    exact absurd h (by simp)
  | ok p =>
    obtain ⟨bs, r1⟩ := p
    rw [hb, except_bind_ok] at h
    dsimp only at h
    injection h with h1
    injection h1 with hv hr
    subst hr
    exact ⟨(Raf.readBytes_ok hb).2.1, (Raf.readBytes_ok hb).2.2⟩


theorem Raf.readU32_ok {r : Raf} {v : Nat} {r' : Raf}
    (h : r.readU32 = .ok (v, r')) :
    r'.data = r.data ∧ r'.pos = r.pos + 4 := by
  unfold Raf.readU32 at h
  cases hb : r.readBytes 4 with
  | error e =>
    rw [hb, except_bind_error] at h
    exact absurd h (by simp)
  | ok p =>
    obtain ⟨bs, r1⟩ := p
    rw [hb, except_bind_ok] at h
    dsimp only at h
    injection h with h1
    injection h1 with hv hr
    subst hr
    exact ⟨(Raf.readBytes_ok hb).2.1, (Raf.readBytes_ok hb).2.2⟩


theorem Raf.readI8_ok {r : Raf} {v : Int} {r' : Raf}
    (h : r.readI8 = .ok (v, r')) :
    r'.data = r.data ∧ r'.pos = r.pos + 1 := by
  unfold Raf.readI8 at h
  cases hb : r.readBytes 1 with
  | error e =>
    rw [hb, except_bind_error] at h
    exact absurd h (by simp)
  | ok p =>
    obtain ⟨bs, r1⟩ := p
    rw [hb, except_bind_ok] at h
    dsimp only at h
    injection h with h1
    injection h1 with hv hr
    subst hr
    exact ⟨(Raf.readBytes_ok hb).2.1, (Raf.readBytes_ok hb).2.2⟩


theorem Raf.readI16_ok {r : Raf} {v : Int} {r' : Raf}
    (h : r.readI16 = .ok (v, r')) :
    r'.data = r.data ∧ r'.pos = r.pos + 2 := by
  unfold Raf.readI16 at h
  cases hb : r.readBytes 2 with
  | error e =>
    rw [hb, except_bind_error] at h
    exact absurd h (by simp)
  | ok p =>
    obtain ⟨bs, r1⟩ := p
    rw [hb, except_bind_ok] at h
    dsimp only at h
    injection h with h1
    injection h1 with hv hr
    subst hr
    exact ⟨(Raf.readBytes_ok hb).2.1, (Raf.readBytes_ok hb).2.2⟩


theorem Raf.readI32_ok {r : Raf} {v : Int} {r' : Raf}
    (h : r.readI32 = .ok (v, r')) :
    r'.data = r.data ∧ r'.pos = r.pos + 4 := by
  unfold Raf.readI32 at h
  cases hb : r.readBytes 4 with
  | error e =>
    rw [hb, except_bind_error] at h
    exact absurd h (by simp)
  | ok p =>
    obtain ⟨bs, r1⟩ := p
    rw [hb, except_bind_ok] at h
    dsimp only at h
    injection h with h1
    injection h1 with hv hr
    subst hr
    exact ⟨(Raf.readBytes_ok hb).2.1, (Raf.readBytes_ok hb).2.2⟩


theorem rbf_i32_spec {f : Nat} {r : Raf} {d v : Int} {f' : Nat} {r' : Raf}
    (h : CReader.read_bitflag_i32 f r d = .ok (v, f', r')) :
    f' = f >>> 1 ∧ r'.data = r.data ∧
    (f.testBit 0 = false → v = d ∧ r' = r) ∧
    (f.testBit 0 = true → r'.pos = r.pos + 4) := by
  unfold CReader.read_bitflag_i32 at h
  split at h
  · rename_i hbit
    cases hb : r.readI32 with
    | error e =>
      rw [hb, except_bind_error] at h
      exact absurd h (by simp)
    | ok p =>
      obtain ⟨w0, r1⟩ := p
      rw [hb, except_bind_ok] at h
      dsimp only at h
      injection h with h1
      injection h1 with hv h2
      injection h2 with hf hr
      subst hf hr
      exact ⟨rfl, (Raf.readI32_ok hb).1,
        fun hc => absurd hbit (by simp [hc]),
        fun _ => (Raf.readI32_ok hb).2⟩
  · rename_i hbit
    injection h with h1
    injection h1 with hv h2
    injection h2 with hf hr
    subst hv hf hr
    exact ⟨rfl, rfl, fun _ => ⟨rfl, rfl⟩, fun hc => absurd hc (by simpa using hbit)⟩


theorem rbf_i16_spec {f : Nat} {r : Raf} {d v : Int} {f' : Nat} {r' : Raf}
    (h : CReader.read_bitflag_i16 f r d = .ok (v, f', r')) :
    f' = f >>> 1 ∧ r'.data = r.data ∧
    (f.testBit 0 = false → v = d ∧ r' = r) ∧
    (f.testBit 0 = true → r'.pos = r.pos + 2) := by
  unfold CReader.read_bitflag_i16 at h
  split at h
  · rename_i hbit
    cases hb : r.readI16 with
    | error e =>
      rw [hb, except_bind_error] at h
      exact absurd h (by simp)
    | ok p =>
      obtain ⟨w0, r1⟩ := p
      rw [hb, except_bind_ok] at h
      dsimp only at h
      injection h with h1
      injection h1 with hv h2
      injection h2 with hf hr
      subst hf hr
      exact ⟨rfl, (Raf.readI16_ok hb).1,
        fun hc => absurd hbit (by simp [hc]),
        fun _ => (Raf.readI16_ok hb).2⟩
  · rename_i hbit
    injection h with h1
    injection h1 with hv h2
    injection h2 with hf hr
    subst hv hf hr
    exact ⟨rfl, rfl, fun _ => ⟨rfl, rfl⟩, fun hc => absurd hc (by simpa using hbit)⟩


theorem rbf_i8_spec {f : Nat} {r : Raf} {d v : Int} {f' : Nat} {r' : Raf}
    (h : CReader.read_bitflag_i8 f r d = .ok (v, f', r')) :
    f' = f >>> 1 ∧ r'.data = r.data ∧
    (f.testBit 0 = false → v = d ∧ r' = r) ∧
    (f.testBit 0 = true → r'.pos = r.pos + 1) := by
  unfold CReader.read_bitflag_i8 at h
  split at h
  · rename_i hbit
    cases hb : r.readI8 with
    | error e =>
      rw [hb, except_bind_error] at h
      exact absurd h (by simp)
    | ok p =>
      obtain ⟨w0, r1⟩ := p
      rw [hb, except_bind_ok] at h
      dsimp only at h
      injection h with h1
      injection h1 with hv h2
      injection h2 with hf hr
      subst hf hr
      exact ⟨rfl, (Raf.readI8_ok hb).1,
        fun hc => absurd hbit (by simp [hc]),
        fun _ => (Raf.readI8_ok hb).2⟩
  · rename_i hbit
    injection h with h1
    injection h1 with hv h2
    injection h2 with hf hr
    subst hv hf hr
    exact ⟨rfl, rfl, fun _ => ⟨rfl, rfl⟩, fun hc => absurd hc (by simpa using hbit)⟩


theorem rbf_u8_spec {f : Nat} {r : Raf} {d v : Nat} {f' : Nat} {r' : Raf}
    (h : CReader.read_bitflag_u8 f r d = .ok (v, f', r')) :
    f' = f >>> 1 ∧ r'.data = r.data ∧
    (f.testBit 0 = false → v = d ∧ r' = r) ∧
    (f.testBit 0 = true → r'.pos = r.pos + 1) := by
  unfold CReader.read_bitflag_u8 at h
  split at h
  · rename_i hbit
    cases hb : r.readU8 with
    | error e =>
      rw [hb, except_bind_error] at h
      exact absurd h (by simp)
    | ok p =>
      obtain ⟨w0, r1⟩ := p
      rw [hb, except_bind_ok] at h
      dsimp only at h
      injection h with h1
      injection h1 with hv h2
      injection h2 with hf hr
      subst hf hr
      exact ⟨rfl, (Raf.readU8_ok hb).1,
        fun hc => absurd hbit (by simp [hc]),
        fun _ => (Raf.readU8_ok hb).2⟩
  · rename_i hbit
    injection h with h1
    injection h1 with hv h2
    injection h2 with hf hr
    subst hv hf hr
    exact ⟨rfl, rfl, fun _ => ⟨rfl, rfl⟩, fun hc => absurd hc (by simpa using hbit)⟩


theorem rbf_string_spec {f : Nat} {r : Raf} {base : Int} {v : Option String}
    {f' : Nat} {r' : Raf}
    (h : CReader.read_bitflag_string f r base = .ok (v, f', r')) :
    f' = f >>> 1 ∧ r'.data = r.data ∧
    (f.testBit 0 = false → v = none ∧ r' = r) ∧
    (f.testBit 0 = true → r'.pos = r.pos + 4) := by
  unfold CReader.read_bitflag_string at h
  split at h
  · rename_i hbit
    cases hb : r.readI32 with
    | error e =>
      rw [hb, except_bind_error] at h
      exact absurd h (by simp)
    | ok p =>
      obtain ⟨off, r1⟩ := p
      rw [hb, except_bind_ok] at h
      dsimp only at h
      cases hs : (r1.seek (usizeOfInt (base + off))).readCString with
      | error e =>
        rw [hs, except_bind_error] at h
        exact absurd h (by simp)
      | ok q =>
        obtain ⟨s, r2⟩ := q
        rw [hs, except_bind_ok] at h
        dsimp only at h
        injection h with h1
        injection h1 with hv h2
        injection h2 with hf hr
        subst hf hr
        exact ⟨rfl, (Raf.readI32_ok hb).1,
          fun hc => absurd hbit (by simp [hc]),
          fun _ => (Raf.readI32_ok hb).2⟩
  · rename_i hbit
    injection h with h1
    injection h1 with hv h2
    injection h2 with hf hr
    subst hv hf hr
    exact ⟨rfl, rfl, fun _ => ⟨rfl, rfl⟩, fun hc => absurd hc (by simpa using hbit)⟩


theorem rbf_dump_spec {f : Nat} {r : Raf} {size : Int} {base : Int} {v : Option (List Nat)}
    {f' : Nat} {r' : Raf}
    (h : CReader.read_bitflag_dump f r size base = .ok (v, f', r')) :
    f' = f >>> 1 ∧ r'.data = r.data ∧
    (f.testBit 0 = false → v = none ∧ r' = r) ∧
    (f.testBit 0 = true → r'.pos = r.pos + 4) := by
  unfold CReader.read_bitflag_dump at h
  split at h
  · rename_i hbit
    cases hb : r.readI32 with
    | error e =>
      rw [hb, except_bind_error] at h
      exact absurd h (by simp)
    | ok p =>
      obtain ⟨off, r1⟩ := p
      rw [hb, except_bind_ok] at h
      dsimp only at h
      cases hs : (r1.seek (usizeOfInt (base + off))).readBytes (usizeOfInt size) with
      | error e =>
        rw [hs, except_bind_error] at h
        exact absurd h (by simp)
      | ok q =>
        obtain ⟨s, r2⟩ := q
        rw [hs, except_bind_ok] at h
        dsimp only at h
        injection h with h1
        injection h1 with hv h2
        injection h2 with hf hr
        subst hf hr
        exact ⟨rfl, (Raf.readI32_ok hb).1,
          fun hc => absurd hbit (by simp [hc]),
          fun _ => (Raf.readI32_ok hb).2⟩
  · rename_i hbit
    injection h with h1
    injection h1 with hv h2
    injection h2 with hf hr
    subst hv hf hr
    exact ⟨rfl, rfl, fun _ => ⟨rfl, rfl⟩, fun hc => absurd hc (by simpa using hbit)⟩

end CBF


namespace CBF

theorem ECU.readHead_fields {f : Nat} {r : Raf} {base : Int}
    {h : ECUHeadFields} {fh : Nat} {rh : Raf}
    (hh : ECU.readHead f r base = .ok (h, fh, rh)) :
    fh = f >>> 11 ∧
    (f.testBit 0 = false → h.name = none) ∧
    (f.testBit 3 = false → h.xml_version = none) ∧
    (f.testBit 8 = false → h.ecu_classname = none) ∧
    (f.testBit 9 = false → h.unk7 = none) ∧
    (f.testBit 10 = false → h.unk8 = none) := by
  unfold ECU.readHead at hh
  cases e1 : CReader.read_bitflag_string f r base with
  | error e =>
    rw [e1, except_bind_error] at hh
    exact absurd hh (by simp)
  | ok p1 =>
  obtain ⟨name, f1, r1⟩ := p1
  rw [e1, except_bind_ok] at hh
  dsimp only at hh
  obtain ⟨hf1, -, hb1, -⟩ := rbf_string_spec e1
  subst hf1
  cases e2 : CReader.read_bitflag_i32 (f >>> 1) r1 (-1) with
  | error e =>
    rw [e2, except_bind_error] at hh
    exact absurd hh (by simp)
  | ok p2 =>
  obtain ⟨ecuname_ctf, f2, r2⟩ := p2
  rw [e2, except_bind_ok] at hh
  dsimp only at hh
  obtain ⟨hf2, -, -, -⟩ := rbf_i32_spec e2
  subst hf2
  cases e3 : CReader.read_bitflag_i32 (f >>> 1 >>> 1) r2 (-1) with
  | error e =>
    rw [e3, except_bind_error] at hh
    exact absurd hh (by simp)
  | ok p3 =>
  obtain ⟨ecudesc_ctf, f3, r3⟩ := p3
  rw [e3, except_bind_ok] at hh
  dsimp only at hh
  obtain ⟨hf3, -, -, -⟩ := rbf_i32_spec e3
  subst hf3
  cases e4 : CReader.read_bitflag_string (f >>> 1 >>> 1 >>> 1) r3 base with
  | error e =>
    rw [e4, except_bind_error] at hh
    exact absurd hh (by simp)
  | ok p4 =>
  obtain ⟨xml, f4, r4⟩ := p4
  rw [e4, except_bind_ok] at hh
  dsimp only at hh
  obtain ⟨hf4, -, hb4, -⟩ := rbf_string_spec e4
  subst hf4
  cases e5 : CReader.read_bitflag_i32 (f >>> 1 >>> 1 >>> 1 >>> 1) r4 0 with
  | error e =>
    rw [e5, except_bind_error] at hh
    exact absurd hh (by simp)
  | ok p5 =>
  obtain ⟨ibc, f5, r5⟩ := p5
  rw [e5, except_bind_ok] at hh
  dsimp only at hh
  obtain ⟨hf5, -, -, -⟩ := rbf_i32_spec e5
  subst hf5
  cases e6 : CReader.read_bitflag_i32 (f >>> 1 >>> 1 >>> 1 >>> 1 >>> 1) r5 0 with
  | error e =>
    rw [e6, except_bind_error] at hh
    exact absurd hh (by simp)
  | ok p6 =>
  obtain ⟨ito, f6, r6⟩ := p6
  rw [e6, except_bind_ok] at hh
  dsimp only at hh
  obtain ⟨hf6, -, -, -⟩ := rbf_i32_spec e6
  subst hf6
  cases e7 : CReader.read_bitflag_i32 (f >>> 1 >>> 1 >>> 1 >>> 1 >>> 1 >>> 1) r6 0 with
  | error e =>
    rw [e7, except_bind_error] at hh
    exact absurd hh (by simp)
  | ok p7 =>
  obtain ⟨sic, f7, r7⟩ := p7
  rw [e7, except_bind_ok] at hh
  dsimp only at hh
  obtain ⟨hf7, -, -, -⟩ := rbf_i32_spec e7
  subst hf7
  cases e8 : CReader.read_bitflag_i32 (f >>> 1 >>> 1 >>> 1 >>> 1 >>> 1 >>> 1 >>> 1) r7 0 with
  | error e =>
    rw [e8, except_bind_error] at hh
    exact absurd hh (by simp)
  | ok p8 =>
  obtain ⟨sio, f8, r8⟩ := p8
  rw [e8, except_bind_ok] at hh
  dsimp only at hh
  obtain ⟨hf8, -, -, -⟩ := rbf_i32_spec e8
  subst hf8
  cases e9 : CReader.read_bitflag_string (f >>> 1 >>> 1 >>> 1 >>> 1 >>> 1 >>> 1 >>> 1 >>> 1) r8 base with
  | error e =>
    rw [e9, except_bind_error] at hh
    exact absurd hh (by simp)
  | ok p9 =>
  obtain ⟨cls, f9, r9⟩ := p9
  rw [e9, except_bind_ok] at hh
  dsimp only at hh
  obtain ⟨hf9, -, hb9, -⟩ := rbf_string_spec e9
  subst hf9
  cases e10 : CReader.read_bitflag_string (f >>> 1 >>> 1 >>> 1 >>> 1 >>> 1 >>> 1 >>> 1 >>> 1 >>> 1) r9 base with
  | error e =>
    rw [e10, except_bind_error] at hh
    exact absurd hh (by simp)
  | ok p10 =>
  obtain ⟨u7, f10, r10⟩ := p10
  rw [e10, except_bind_ok] at hh
  dsimp only at hh
  obtain ⟨hf10, -, hb10, -⟩ := rbf_string_spec e10
  subst hf10
  cases e11 : CReader.read_bitflag_string (f >>> 1 >>> 1 >>> 1 >>> 1 >>> 1 >>> 1 >>> 1 >>> 1 >>> 1 >>> 1) r10 base with
  | error e =>
    rw [e11, except_bind_error] at hh
    exact absurd hh (by simp)
  | ok p11 =>
  obtain ⟨u8v, f11, r11⟩ := p11
  rw [e11, except_bind_ok] at hh
  dsimp only at hh
  obtain ⟨hf11, -, hb11, -⟩ := rbf_string_spec e11
  subst hf11
  injection hh with hh1
  injection hh1 with hhead hh2
  injection hh2 with hfh hrh
  subst hhead
  refine ⟨by rw [← hfh]; simp [sr_sr], ?_, ?_, ?_, ?_, ?_⟩
  · intro hbit; exact (hb1 hbit).1
  · intro hbit
    refine (hb4 ?_).1
    simp only [sr_sr]
    simpa [testBit_shift] using hbit
  · intro hbit
    refine (hb9 ?_).1
    simp only [sr_sr]
    simpa [testBit_shift] using hbit
  · intro hbit
    refine (hb10 ?_).1
    simp only [sr_sr]
    simpa [testBit_shift] using hbit
  · intro hbit
    refine (hb11 ?_).1
    simp only [sr_sr]
    simpa [testBit_shift] using hbit


theorem ECU.decodeBody_ok_elim {f : Nat} {r : Raf} {header : CFFHeader}
    {base : Int} {ecu : ECU} {rF : Raf}
    (hh : ECU.decodeBody f r header base = .ok (ecu, rF)) :
    ∃ h f1 r1 s f2 r2 b8 f3 r3 u39 f4 r4 ifs r5 sifs r6,
      ECU.readHead f r base = .ok (h, f1, r1) ∧
      ECU.readScalars f1 r1 = .ok (s, f2, r2) ∧
      ECU.readBlocks f2 r2 (dataOffset header) = .ok (b8, f3, r3) ∧
      CReader.read_bitflag_i32 f3 r3 0 = .ok (u39, f4, r4) ∧
      ECU.readInterfaces (base + h.iface_tableoffset) 0 h.iface_blockcount.toNat r4
        = .ok (ifs, r5) ∧
      ECU.readSubInterfaces (usizeOfInt (base + h.subiface_offset)) 0
        h.subiface_count.toNat r5 = .ok (sifs, r6) ∧
      ECU.assemble h s b8 u39 ifs sifs base = .ok ecu ∧ rF = r6 := by
  unfold ECU.decodeBody at hh
  cases e1 : ECU.readHead f r base with
  | error e =>
    rw [e1, except_bind_error] at hh
    exact absurd hh (by simp)
  | ok p1 =>
  obtain ⟨h, f1, r1⟩ := p1
  rw [e1, except_bind_ok] at hh
  dsimp only at hh
  cases e2 : ECU.readScalars f1 r1 with
  | error e =>
    rw [e2, except_bind_error] at hh
    exact absurd hh (by simp)
  | ok p2 =>
  obtain ⟨s, f2, r2⟩ := p2
  rw [e2, except_bind_ok] at hh
  dsimp only at hh
  cases e3 : ECU.readBlocks f2 r2 (dataOffset header) with
  | error e =>
    rw [e3, except_bind_error] at hh
    exact absurd hh (by simp)
  | ok p3 =>
  obtain ⟨b8, f3, r3⟩ := p3
  rw [e3, except_bind_ok] at hh
  dsimp only at hh
  cases e4 : CReader.read_bitflag_i32 f3 r3 0 with
  | error e =>
    rw [e4, except_bind_error] at hh
    exact absurd hh (by simp)
  | ok p4 =>
  obtain ⟨u39, f4, r4⟩ := p4
  rw [e4, except_bind_ok] at hh
  dsimp only at hh
  cases e5 : ECU.readInterfaces (base + h.iface_tableoffset) 0
      h.iface_blockcount.toNat r4 with
  | error e =>
    rw [e5, except_bind_error] at hh
    exact absurd hh (by simp)
  | ok p5 =>
  obtain ⟨ifs, r5⟩ := p5
  rw [e5, except_bind_ok] at hh
  dsimp only at hh
  cases e6 : ECU.readSubInterfaces (usizeOfInt (base + h.subiface_offset)) 0
      h.subiface_count.toNat r5 with
  | error e =>
    rw [e6, except_bind_error] at hh
    exact absurd hh (by simp)
  | ok p6 =>
  obtain ⟨sifs, r6⟩ := p6
  rw [e6, except_bind_ok] at hh
  dsimp only at hh
  cases e7 : ECU.assemble h s b8 u39 ifs sifs base with
  | error e =>
    rw [e7, except_bind_error] at hh
    exact absurd hh (by simp)
  | ok ecu0 =>
  rw [e7, except_bind_ok] at hh
  try dsimp only at hh
  injection hh with hh1
  injection hh1 with hecu hr
  subst hecu
  refine ⟨h, f1, r1, s, f2, r2, b8, f3, r3, u39, f4, r4, ifs, r5, sifs, r6,
    ?_, ?_, ?_, ?_, ?_, ?_, ?_, ?_⟩
  · exact rfl
  · exact e2
  · exact e3
  · exact e4
  · exact e5
  · exact e6
  · exact e7
  · exact hr.symm


theorem ECU.assemble_ok_elim {h : ECUHeadFields} {s : ECUScalars} {b8 : Blocks8}
    {u39 : Int} {ifs : List ECUInterface} {sifs : List ECUInterfaceSubType}
    {base : Int} {ecu : ECU}
    (ha : ECU.assemble h s b8 u39 ifs sifs base = .ok ecu) :
    h.name = some ecu.name ∧ h.xml_version = some ecu.xml_version ∧
    h.ecu_classname = some ecu.ecu_class_name ∧
    ecu.unk_str7 = h.unk7.getD "N/A" ∧ ecu.unk_str8 = h.unk8.getD "Unknown" ∧
    ecu.ecuvarient = b8.ecuvarient_block ∧ ecu.diagjob = b8.diagjob_block ∧
    ecu.dtc = b8.dtc_block ∧ ecu.vcdomain = b8.vc_domain_block ∧
    ecu.env = b8.env_block ∧ ecu.presentations = b8.pres_block ∧
    ecu.info = b8.info_block ∧ ecu.unk_block = b8.unk_block := by
  unfold ECU.assemble at ha
  cases hname : h.name with
  | none =>
    rw [hname] at ha
    cases h.xml_version <;> cases h.ecu_classname <;>
      ((try dsimp only at ha) <;> exact absurd ha (by simp))
  | some name =>
  cases hxml : h.xml_version with
  | none =>
    rw [hname, hxml] at ha
    cases h.ecu_classname <;> ((try dsimp only at ha) <;> exact absurd ha (by simp))
  | some xml =>
  cases hcls : h.ecu_classname with
  | none =>
    rw [hname, hxml, hcls] at ha
    try dsimp only at ha
    exact absurd ha (by simp)
  | some cls =>
  rw [hname, hxml, hcls] at ha
  dsimp only at ha
  injection ha with hecu
  subst hecu
  exact ⟨rfl, rfl, rfl, rfl, rfl, rfl, rfl, rfl, rfl, rfl, rfl, rfl, rfl⟩

end CBF


namespace CBF

theorem nthBlockRead_zero (f : Nat) (r : Raf) (off : Int) :
    nthBlockRead f r off 0 = block.new f r off := rfl

theorem nthBlockRead_succ_ok {f : Nat} {r : Raf} {off : Int} {b : block}
    {f' : Nat} {r' : Raf}
    (hb : block.new f r off = .ok (b, f', r')) (n : Nat) :
    nthBlockRead f r off (n + 1) = nthBlockRead f' r' off n := by
  show (block.new f r off >>= fun p =>
    match p with | (_, f2, r2) => nthBlockRead f2 r2 off n) = nthBlockRead f' r' off n
  rw [hb, except_bind_ok]

theorem nthBlockRawOffset_zero (f : Nat) (r : Raf) (off : Int) :
    nthBlockRawOffset f r off 0
      = (CReader.read_bitflag_i32 f r 0).map (fun t => t.1) := rfl

theorem nthBlockRawOffset_succ_ok {f : Nat} {r : Raf} {off : Int} {b : block}
    {f' : Nat} {r' : Raf}
    (hb : block.new f r off = .ok (b, f', r')) (n : Nat) :
    nthBlockRawOffset f r off (n + 1) = nthBlockRawOffset f' r' off n := by
  show (block.new f r off >>= fun p =>
    match p with | (_, f2, r2) => nthBlockRawOffset f2 r2 off n)
    = nthBlockRawOffset f' r' off n
  rw [hb, except_bind_ok]

theorem exmap_toOption {ε α β : Type} (g : α → β) (x : Except ε α) :
    (Except.map g x).toOption = x.toOption.map g := by
  cases x <;> rfl

theorem block.new_raw {f : Nat} {r : Raf} {off : Int} {b : block} {f' : Nat} {r' : Raf}
    (h : block.new f r off = .ok (b, f', r')) :
    (CReader.read_bitflag_i32 f r 0).toOption.map (fun t => t.1 + off)
      = some b.block_offset := by
  unfold block.new at h
  cases e1 : CReader.read_bitflag_i32 f r 0 with
  | error e =>
    rw [e1, except_bind_error] at h
    exact absurd h (by simp)
  | ok p1 =>
  obtain ⟨v1, f1, r1⟩ := p1
  rw [e1, except_bind_ok] at h
  dsimp only at h
  cases e2 : CReader.read_bitflag_i32 f1 r1 0 with
  | error e =>
    rw [e2, except_bind_error] at h
    exact absurd h (by simp)
  | ok p2 =>
  obtain ⟨v2, f2, r2⟩ := p2
  rw [e2, except_bind_ok] at h
  dsimp only at h
  cases e3 : CReader.read_bitflag_i32 f2 r2 0 with
  | error e =>
    rw [e3, except_bind_error] at h
    exact absurd h (by simp)
  | ok p3 =>
  obtain ⟨v3, f3, r3⟩ := p3
  rw [e3, except_bind_ok] at h
  dsimp only at h
  cases e4 : CReader.read_bitflag_i32 f3 r3 0 with
  | error e =>
    rw [e4, except_bind_error] at h
    exact absurd h (by simp)
  | ok p4 =>
  obtain ⟨v4, f4, r4⟩ := p4
  rw [e4, except_bind_ok] at h
  dsimp only at h
  injection h with h1
  injection h1 with hb hrest
  subst hb
  simp [Except.toOption]


theorem ECU.readBlocks_order {f : Nat} {r : Raf} {off : Int} {b8 : Blocks8}
    {f' : Nat} {r' : Raf}
    (h : ECU.readBlocks f r off = .ok (b8, f', r')) :
    (nthBlockRead f r off 0).toOption.map (fun t => t.1) = some b8.ecuvarient_block ∧
    (nthBlockRead f r off 1).toOption.map (fun t => t.1) = some b8.diagjob_block ∧
    (nthBlockRead f r off 2).toOption.map (fun t => t.1) = some b8.dtc_block ∧
    (nthBlockRead f r off 3).toOption.map (fun t => t.1) = some b8.vc_domain_block ∧
    (nthBlockRead f r off 4).toOption.map (fun t => t.1) = some b8.env_block ∧
    (nthBlockRead f r off 5).toOption.map (fun t => t.1) = some b8.pres_block ∧
    (nthBlockRead f r off 6).toOption.map (fun t => t.1) = some b8.info_block ∧
    (nthBlockRead f r off 7).toOption.map (fun t => t.1) = some b8.unk_block := by
  unfold ECU.readBlocks at h
  cases hb1 : block.new f r off with
  | error e =>
    rw [hb1, except_bind_error] at h
    exact absurd h (by simp)
  | ok q1 =>
  obtain ⟨b1, f1, r1⟩ := q1
  rw [hb1, except_bind_ok] at h
  dsimp only at h
  cases hb2 : block.new f1 r1 off with
  | error e =>
    rw [hb2, except_bind_error] at h
    exact absurd h (by simp)
  | ok q2 =>
  obtain ⟨b2, f2, r2⟩ := q2
  rw [hb2, except_bind_ok] at h
  dsimp only at h
  cases hb3 : block.new f2 r2 off with
  | error e =>
    rw [hb3, except_bind_error] at h
    exact absurd h (by simp)
  | ok q3 =>
  obtain ⟨b3, f3, r3⟩ := q3
  rw [hb3, except_bind_ok] at h
  dsimp only at h
  cases hb4 : block.new f3 r3 off with
  | error e =>
    rw [hb4, except_bind_error] at h
    exact absurd h (by simp)
  | ok q4 =>
  obtain ⟨b4, f4, r4⟩ := q4
  rw [hb4, except_bind_ok] at h
  dsimp only at h
  cases hb5 : block.new f4 r4 off with
  | error e =>
    rw [hb5, except_bind_error] at h
    exact absurd h (by simp)
  | ok q5 =>
  obtain ⟨b5, f5, r5⟩ := q5
  rw [hb5, except_bind_ok] at h
  dsimp only at h
  cases hb6 : block.new f5 r5 off with
  | error e =>
    rw [hb6, except_bind_error] at h
    exact absurd h (by simp)
  | ok q6 =>
  obtain ⟨b6, f6, r6⟩ := q6
  rw [hb6, except_bind_ok] at h
  dsimp only at h
  cases hb7 : block.new f6 r6 off with
  | error e =>
    rw [hb7, except_bind_error] at h
    exact absurd h (by simp)
  | ok q7 =>
  obtain ⟨b7, f7, r7⟩ := q7
  rw [hb7, except_bind_ok] at h
  dsimp only at h
  cases hb8 : block.new f7 r7 off with
  | error e =>
    rw [hb8, except_bind_error] at h
    exact absurd h (by simp)
  | ok q8 =>
  obtain ⟨b8, f8, r8⟩ := q8
  rw [hb8, except_bind_ok] at h
  dsimp only at h
  injection h with h1
  injection h1 with hb8 hrest
  subst hb8
  refine ⟨?_, ?_, ?_, ?_, ?_, ?_, ?_, ?_⟩
  · rw [nthBlockRead_zero]
    rw [hb1]
    rfl
  · rw [nthBlockRead_succ_ok hb1]
    rw [nthBlockRead_zero]
    rw [hb2]
    rfl
  · rw [nthBlockRead_succ_ok hb1, nthBlockRead_succ_ok hb2]
    rw [nthBlockRead_zero]
    rw [hb3]
    rfl
  · rw [nthBlockRead_succ_ok hb1, nthBlockRead_succ_ok hb2, nthBlockRead_succ_ok hb3]
    rw [nthBlockRead_zero]
    rw [hb4]
    rfl
  · rw [nthBlockRead_succ_ok hb1, nthBlockRead_succ_ok hb2, nthBlockRead_succ_ok hb3, nthBlockRead_succ_ok hb4]
    rw [nthBlockRead_zero]
    rw [hb5]
    rfl
  · rw [nthBlockRead_succ_ok hb1, nthBlockRead_succ_ok hb2, nthBlockRead_succ_ok hb3, nthBlockRead_succ_ok hb4, nthBlockRead_succ_ok hb5]
    rw [nthBlockRead_zero]
    rw [hb6]
    rfl
  · rw [nthBlockRead_succ_ok hb1, nthBlockRead_succ_ok hb2, nthBlockRead_succ_ok hb3, nthBlockRead_succ_ok hb4, nthBlockRead_succ_ok hb5, nthBlockRead_succ_ok hb6]
    rw [nthBlockRead_zero]
    rw [hb7]
    rfl
  · rw [nthBlockRead_succ_ok hb1, nthBlockRead_succ_ok hb2, nthBlockRead_succ_ok hb3, nthBlockRead_succ_ok hb4, nthBlockRead_succ_ok hb5, nthBlockRead_succ_ok hb6, nthBlockRead_succ_ok hb7]
    rw [nthBlockRead_zero]
    rw [hb8]
    rfl


theorem ECU.readBlocks_raw {f : Nat} {r : Raf} {off : Int} {b8 : Blocks8}
    {f' : Nat} {r' : Raf}
    (h : ECU.readBlocks f r off = .ok (b8, f', r')) :
    (nthBlockRawOffset f r off 0).toOption.map (fun v => v + off) = some b8.ecuvarient_block.block_offset ∧
    (nthBlockRawOffset f r off 1).toOption.map (fun v => v + off) = some b8.diagjob_block.block_offset ∧
    (nthBlockRawOffset f r off 2).toOption.map (fun v => v + off) = some b8.dtc_block.block_offset ∧
    (nthBlockRawOffset f r off 3).toOption.map (fun v => v + off) = some b8.vc_domain_block.block_offset ∧
    (nthBlockRawOffset f r off 4).toOption.map (fun v => v + off) = some b8.env_block.block_offset ∧
    (nthBlockRawOffset f r off 5).toOption.map (fun v => v + off) = some b8.pres_block.block_offset ∧
    (nthBlockRawOffset f r off 6).toOption.map (fun v => v + off) = some b8.info_block.block_offset ∧
    (nthBlockRawOffset f r off 7).toOption.map (fun v => v + off) = some b8.unk_block.block_offset := by
  unfold ECU.readBlocks at h
  cases hb1 : block.new f r off with
  | error e =>
    rw [hb1, except_bind_error] at h
    exact absurd h (by simp)
  | ok q1 =>
  obtain ⟨b1, f1, r1⟩ := q1
  rw [hb1, except_bind_ok] at h
  dsimp only at h
  cases hb2 : block.new f1 r1 off with
  | error e =>
    rw [hb2, except_bind_error] at h
    exact absurd h (by simp)
  | ok q2 =>
  obtain ⟨b2, f2, r2⟩ := q2
  rw [hb2, except_bind_ok] at h
  dsimp only at h
  cases hb3 : block.new f2 r2 off with
  | error e =>
    rw [hb3, except_bind_error] at h
    exact absurd h (by simp)
  | ok q3 =>
  obtain ⟨b3, f3, r3⟩ := q3
  rw [hb3, except_bind_ok] at h
  dsimp only at h
  cases hb4 : block.new f3 r3 off with
  | error e =>
    rw [hb4, except_bind_error] at h
    exact absurd h (by simp)
  | ok q4 =>
  obtain ⟨b4, f4, r4⟩ := q4
  rw [hb4, except_bind_ok] at h
  dsimp only at h
  cases hb5 : block.new f4 r4 off with
  | error e =>
    rw [hb5, except_bind_error] at h
    exact absurd h (by simp)
  | ok q5 =>
  obtain ⟨b5, f5, r5⟩ := q5
  rw [hb5, except_bind_ok] at h
  dsimp only at h
  cases hb6 : block.new f5 r5 off with
  | error e =>
    rw [hb6, except_bind_error] at h
    exact absurd h (by simp)
  | ok q6 =>
  obtain ⟨b6, f6, r6⟩ := q6
  rw [hb6, except_bind_ok] at h
  dsimp only at h
  cases hb7 : block.new f6 r6 off with
  | error e =>
    rw [hb7, except_bind_error] at h
    exact absurd h (by simp)
  | ok q7 =>
  obtain ⟨b7, f7, r7⟩ := q7
  rw [hb7, except_bind_ok] at h
  dsimp only at h
  cases hb8 : block.new f7 r7 off with
  | error e =>
    rw [hb8, except_bind_error] at h
    exact absurd h (by simp)
  | ok q8 =>
  obtain ⟨b8, f8, r8⟩ := q8
  rw [hb8, except_bind_ok] at h
  dsimp only at h
  injection h with h1
  injection h1 with hb8 hrest
  subst hb8
  refine ⟨?_, ?_, ?_, ?_, ?_, ?_, ?_, ?_⟩
  · rw [nthBlockRawOffset_zero, exmap_toOption, Option.map_map]
    exact block.new_raw hb1
  · rw [nthBlockRawOffset_succ_ok hb1]
    rw [nthBlockRawOffset_zero, exmap_toOption, Option.map_map]
    exact block.new_raw hb2
  · rw [nthBlockRawOffset_succ_ok hb1, nthBlockRawOffset_succ_ok hb2]
    rw [nthBlockRawOffset_zero, exmap_toOption, Option.map_map]
    exact block.new_raw hb3
  · rw [nthBlockRawOffset_succ_ok hb1, nthBlockRawOffset_succ_ok hb2, nthBlockRawOffset_succ_ok hb3]
    rw [nthBlockRawOffset_zero, exmap_toOption, Option.map_map]
    exact block.new_raw hb4
  · rw [nthBlockRawOffset_succ_ok hb1, nthBlockRawOffset_succ_ok hb2, nthBlockRawOffset_succ_ok hb3, nthBlockRawOffset_succ_ok hb4]
    rw [nthBlockRawOffset_zero, exmap_toOption, Option.map_map]
    exact block.new_raw hb5
  · rw [nthBlockRawOffset_succ_ok hb1, nthBlockRawOffset_succ_ok hb2, nthBlockRawOffset_succ_ok hb3, nthBlockRawOffset_succ_ok hb4, nthBlockRawOffset_succ_ok hb5]
    rw [nthBlockRawOffset_zero, exmap_toOption, Option.map_map]
    exact block.new_raw hb6
  · rw [nthBlockRawOffset_succ_ok hb1, nthBlockRawOffset_succ_ok hb2, nthBlockRawOffset_succ_ok hb3, nthBlockRawOffset_succ_ok hb4, nthBlockRawOffset_succ_ok hb5, nthBlockRawOffset_succ_ok hb6]
    rw [nthBlockRawOffset_zero, exmap_toOption, Option.map_map]
    exact block.new_raw hb7
  · rw [nthBlockRawOffset_succ_ok hb1, nthBlockRawOffset_succ_ok hb2, nthBlockRawOffset_succ_ok hb3, nthBlockRawOffset_succ_ok hb4, nthBlockRawOffset_succ_ok hb5, nthBlockRawOffset_succ_ok hb6, nthBlockRawOffset_succ_ok hb7]
    rw [nthBlockRawOffset_zero, exmap_toOption, Option.map_map]
    exact block.new_raw hb8

end CBF


namespace CBF

theorem leNat_lt (bs : List Nat) : leNat bs < 2 ^ (8 * bs.length) := by
  induction bs with
  | nil => simp [leNat]
  | cons b t ih =>
    have hb : b % 256 < 256 := Nat.mod_lt _ (by norm_num)
    have hstep : leNat (b :: t) = b % 256 + 256 * leNat t := rfl
    have hlen : 8 * (b :: t).length = 8 * t.length + 8 := by
      simp [List.length_cons]; ring
    rw [hstep, hlen, pow_add]
    have h256 : (2 : Nat) ^ 8 = 256 := by norm_num
    rw [h256]
    omega

theorem toSigned16_range {u : Nat} (hu : u < 2 ^ 16) :
    -(2 : Int) ^ 15 ≤ toSigned 16 u ∧ toSigned 16 u < 2 ^ 15 := by
  unfold toSigned
  norm_num
  split <;> omega

theorem Raf.readI16_range {r : Raf} {v : Int} {r' : Raf}
    (h : r.readI16 = .ok (v, r')) :
    -(2 : Int) ^ 15 ≤ v ∧ v < 2 ^ 15 := by
  unfold Raf.readI16 at h
  cases hb : r.readBytes 2 with
  | error e =>
    rw [hb, except_bind_error] at h
    exact absurd h (by simp)
  | ok p =>
    obtain ⟨bs, r1⟩ := p
    rw [hb, except_bind_ok] at h
    dsimp only at h
    injection h with h1
    injection h1 with hv hr
    subst hv
    have hlen : bs.length = 2 := (Raf.readBytes_ok hb).1
    have := leNat_lt bs
    rw [hlen] at this
    exact toSigned16_range (by norm_num at this ⊢; omega)

theorem rbf_i16_range {f : Nat} {r : Raf} {d v : Int} {f' : Nat} {r' : Raf}
    (hd : -(2 : Int) ^ 15 ≤ d ∧ d < 2 ^ 15)
    (h : CReader.read_bitflag_i16 f r d = .ok (v, f', r')) :
    -(2 : Int) ^ 15 ≤ v ∧ v < 2 ^ 15 := by
  unfold CReader.read_bitflag_i16 at h
  split at h
  · cases hb : r.readI16 with
    | error e =>
      rw [hb, except_bind_error] at h
      exact absurd h (by simp)
    | ok p =>
      obtain ⟨w, r1⟩ := p
      rw [hb, except_bind_ok] at h
      dsimp only at h
      injection h with h1
      injection h1 with hv h2
      subst hv
      exact Raf.readI16_range hb
  · injection h with h1
    injection h1 with hv h2
    subst hv
    exact hd

theorem rbf_dump_some_length {f : Nat} {r : Raf} {size base : Int}
    {bs : List Nat} {f' : Nat} {r' : Raf}
    (h : CReader.read_bitflag_dump f r size base = .ok (some bs, f', r')) :
    bs.length = usizeOfInt size := by
  unfold CReader.read_bitflag_dump at h
  split at h
  · cases hb : r.readI32 with
    | error e =>
      rw [hb, except_bind_error] at h
      exact absurd h (by simp)
    | ok p =>
      obtain ⟨off, r1⟩ := p
      rw [hb, except_bind_ok] at h
      dsimp only at h
      cases hs : (r1.seek (usizeOfInt (base + off))).readBytes (usizeOfInt size) with
      | error e =>
        rw [hs, except_bind_error] at h
        exact absurd h (by simp)
      | ok q =>
        obtain ⟨bs2, r2⟩ := q
        rw [hs, except_bind_ok] at h
        dsimp only at h
        injection h with h1
        injection h1 with hv h2
        have hbs : bs2 = bs := by
          injection hv
        subst hbs
        exact (Raf.readBytes_ok hs).1
  · injection h with h1
    injection h1 with hv h2
    exact absurd hv (by simp)

theorem ComParameter.new_ok_elim {r : Raf} {base : Int} {iface : ECUInterface}
    {cp : ComParameter} {r' : Raf}
    (h : ComParameter.new r base iface = .ok (cp, r')) :
    cp.dump_size = 4 ∧ cp.dump.length = 4 ∧
    cp.com_param_value = toSigned 32
      ((cp.dump.getD 3 0 <<< 24) ||| (cp.dump.getD 2 0 <<< 16) |||
       (cp.dump.getD 1 0 <<< 8) ||| cp.dump.getD 0 0) ∧
    -(2 : Int) ^ 15 ≤ cp.param_index ∧ cp.param_index < 2 ^ 15 ∧
    iface.com_parameters.get? (usizeOfInt cp.param_index) = some cp.com_param_name := by
  unfold ComParameter.new at h
  try dsimp only at h
  cases e0 : (r.seek (usizeOfInt base)).readU16 with
  | error e =>
    rw [e0, except_bind_error] at h
    exact absurd h (by simp)
  | ok p0 =>
  obtain ⟨bf, r0⟩ := p0
  rw [e0, except_bind_ok] at h
  try dsimp only at h
  cases e1 : CReader.read_bitflag_i16 bf r0 0 with
  | error e =>
    rw [e1, except_bind_error] at h
    exact absurd h (by simp)
  | ok p1 =>
  obtain ⟨param_index, f1, r1⟩ := p1
  rw [e1, except_bind_ok] at h
  try dsimp only at h
  cases e2 : CReader.read_bitflag_i16 f1 r1 0 with
  | error e =>
    rw [e2, except_bind_error] at h
    exact absurd h (by simp)
  | ok p2 =>
  obtain ⟨unk3, f2, r2⟩ := p2
  rw [e2, except_bind_ok] at h
  try dsimp only at h
  cases e3 : CReader.read_bitflag_i16 f2 r2 0 with
  | error e =>
    rw [e3, except_bind_error] at h
    exact absurd h (by simp)
  | ok p3 =>
  obtain ⟨sif, f3, r3⟩ := p3
  rw [e3, except_bind_ok] at h
  try dsimp only at h
  cases e4 : CReader.read_bitflag_i16 f3 r3 0 with
  | error e =>
    rw [e4, except_bind_error] at h
    exact absurd h (by simp)
  | ok p4 =>
  obtain ⟨unk5, f4, r4⟩ := p4
  rw [e4, except_bind_ok] at h
  try dsimp only at h
  cases e5 : CReader.read_bitflag_i32 f4 r4 0 with
  | error e =>
    rw [e5, except_bind_error] at h
    exact absurd h (by simp)
  | ok p5 =>
  obtain ⟨unk_ctf, f5, r5⟩ := p5
  rw [e5, except_bind_ok] at h
  try dsimp only at h
  cases e6 : CReader.read_bitflag_i16 f5 r5 0 with
  | error e =>
    rw [e6, except_bind_error] at h
    exact absurd h (by simp)
  | ok p6 =>
  obtain ⟨phrase, f6, r6⟩ := p6
  rw [e6, except_bind_ok] at h
  try dsimp only at h
  cases e7 : CReader.read_bitflag_i32 f6 r6 0 with
  | error e =>
    rw [e7, except_bind_error] at h
    exact absurd h (by simp)
  | ok p7 =>
  obtain ⟨dump_size, f7, r7⟩ := p7
  rw [e7, except_bind_ok] at h
  try dsimp only at h
  cases e8 : CReader.read_bitflag_dump f7 r7 dump_size base with
  | error e =>
    rw [e8, except_bind_error] at h
    exact absurd h (by simp)
  | ok p8 =>
  obtain ⟨dumpOpt, f8, r8⟩ := p8
  rw [e8, except_bind_ok] at h
  try dsimp only at h
  cases dumpOpt with
  | none =>
    try dsimp only at h
    rw [except_bind_error] at h
    exact absurd h (by simp)
  | some d =>
  try dsimp only at h
  rw [except_bind_ok] at h
  try dsimp only at h
  split at h
  case isFalse hds =>
    rw [except_bind_error] at h
    exact absurd h (by simp)
  case isTrue hds =>
  rw [except_bind_ok] at h
  try dsimp only at h
  cases hg : iface.com_parameters.get? (usizeOfInt param_index) with
  | none =>
    rw [hg] at h
    try dsimp only at h
    rw [except_bind_error] at h
    exact absurd h (by simp)
  | some s =>
  rw [hg] at h
  try dsimp only at h
  rw [except_bind_ok] at h
  try dsimp only at h
  injection h with h1
  injection h1 with hcp hr
  subst hcp
  subst hds
  refine ⟨rfl, ?_, rfl, ?_, ?_, hg⟩
  · have := rbf_dump_some_length e8
    simpa using this
  · exact (rbf_i16_range (by norm_num) e1).1
  · exact (rbf_i16_range (by norm_num) e1).2

end CBF


namespace CBF

/-- C1: the claim says a successfully decoded ECU is returned to its caller
by `ECU::new`; in the code `ECU::new` has return type `!` and ends in
`panic!("Done")`, so no call of `ECU::new` ever produces an ECU — on every
input the embedded `ECU.new` fails. -/
theorem ecu_new_never_returns_ok :
    ∀ (r : Raf) (header : CFFHeader) (base_addr : Int),
      exOk (ECU.new r header base_addr) = false := by
  intro r header base
  unfold ECU.new
  cases h1 : ECU.decodeFields r header base with
  | error e => rw [except_bind_error]; rfl
  | ok p =>
    obtain ⟨res, r1⟩ := p
    rw [except_bind_ok]
    dsimp only
    cases h2 : res.create_diag_pool r1 with
    | error e => rw [except_bind_error]; rfl
    | ok p2 =>
      obtain ⟨res2, r2⟩ := p2
      rw [except_bind_ok]
      dsimp only
      cases h3 : res2.create_ecu_varients r2 with
      | error e => rw [except_bind_error]; rfl
      | ok p3 =>
        obtain ⟨res3, r3⟩ := p3
        rw [except_bind_ok]
        rfl

set_option maxRecDepth 1000000 in
/-- C2: on a variant whose header carries `diag_services_count = 2`,
`diag_services_offset = 28`, `VCDomainsCount = 1`, `VCDomainsOffset = 24`,
`ECUVarient::new` reads only 1 entry (the `VCDomainsCount`) into
`diag_services_pool_offsets`, not the 2 entries the claim requires; the
VC-domain table itself does get `VCDomainsCount` entries. -/
theorem ecu_varient_diag_table_uses_vcdomain_count :
    (ECUVarient.new ⟨varBytesC2, 0⟩ 0 32).toOption.map
      (fun p => (p.1.diag_services_count, p.1.diag_services_pool_offsets.length,
                 p.1.VCDomainsCount, p.1.vc_domain_pool_offsets.length))
      = some (2, 1, 1, 1) := by rfl

/-- C3 (amended): for every successful run of the ECU decode body, the 8
Block descriptors are decoded in the fixed order variant, diag-job, DTC,
VC-domain, env, presentation, info, reserved: the `n`-th descriptor read
from the stream (starting from the state after the scalar header fields)
is the `n`-th field in that order — in particular the fourth descriptor
read is the VC-domain-pool block and the fifth is the env-pool block. -/
theorem ecu_blocks_read_order :
    ∀ (f : Nat) (r : Raf) (header : CFFHeader) (base : Int) (ecu : ECU) (rF : Raf)
      (h : ECUHeadFields) (f1 : Nat) (r1 : Raf) (s : ECUScalars) (f2 : Nat) (r2 : Raf),
      ECU.decodeBody f r header base = .ok (ecu, rF) →
      ECU.readHead f r base = .ok (h, f1, r1) →
      ECU.readScalars f1 r1 = .ok (s, f2, r2) →
      (nthBlockRead f2 r2 (dataOffset header) 0).toOption.map (fun t => t.1)
        = some ecu.ecuvarient ∧
      (nthBlockRead f2 r2 (dataOffset header) 1).toOption.map (fun t => t.1)
        = some ecu.diagjob ∧
      (nthBlockRead f2 r2 (dataOffset header) 2).toOption.map (fun t => t.1)
        = some ecu.dtc ∧
      (nthBlockRead f2 r2 (dataOffset header) 3).toOption.map (fun t => t.1)
        = some ecu.vcdomain ∧
      (nthBlockRead f2 r2 (dataOffset header) 4).toOption.map (fun t => t.1)
        = some ecu.env ∧
      (nthBlockRead f2 r2 (dataOffset header) 5).toOption.map (fun t => t.1)
        = some ecu.presentations ∧
      (nthBlockRead f2 r2 (dataOffset header) 6).toOption.map (fun t => t.1)
        = some ecu.info ∧
      (nthBlockRead f2 r2 (dataOffset header) 7).toOption.map (fun t => t.1)
        = some ecu.unk_block := by
  intro f r header base ecu rF h f1 r1 s f2 r2 hd hH hS
  obtain ⟨h', f1', r1', s', f2', r2', b8, f3, r3, u39, f4, r4, ifs, r5, sifs, r6,
    e1, e2, e3, e4, e5, e6, e7, hr⟩ := ECU.decodeBody_ok_elim hd
  rw [hH] at e1
  injection e1 with e1a
  injection e1a with hh1 e1b
  injection e1b with hf1 hr1
  subst hh1 hf1 hr1
  rw [hS] at e2
  injection e2 with e2a
  injection e2a with hs1 e2b
  injection e2b with hf2 hr2
  subst hs1 hf2 hr2
  have horder := ECU.readBlocks_order e3
  obtain ⟨-, -, -, -, -, hbl1, hbl2, hbl3, hbl4, hbl5, hbl6, hbl7, hbl8⟩ :=
    ECU.assemble_ok_elim e7
  rw [hbl1, hbl2, hbl3, hbl4, hbl5, hbl6, hbl7, hbl8]
  exact horder

set_option maxRecDepth 1000000 in
/-- C3 witness: on the concrete 148-byte ECU record `ecuBytesA`, the
fourth and fifth descriptors read from the stream are the decoded ECU's
`vcdomain` and `env` blocks respectively. -/
theorem ecu_blocks_read_order_witness :
    (nthBlockRead (fA >>> 17) ⟨ecuBytesA, 22⟩ (dataOffset hdrA) 3).toOption.map
      (fun t => t.1) = some ecuA.vcdomain ∧
    (nthBlockRead (fA >>> 17) ⟨ecuBytesA, 22⟩ (dataOffset hdrA) 4).toOption.map
      (fun t => t.1) = some ecuA.env := by
  have happ := ecu_blocks_read_order fA rA hdrA 0 ecuA ⟨ecuBytesA, 142⟩ headA
    (fA >>> 11) ⟨ecuBytesA, 22⟩ scalA (fA >>> 17) ⟨ecuBytesA, 22⟩
    (by rfl) (by rfl) (by rfl)
  exact ⟨happ.2.2.2.1, happ.2.2.2.2.1⟩

set_option maxRecDepth 1000000 in
/-- C3 counterexample: on the concrete record `ecuBytesA` (whose eight raw
block offsets are the distinct values 1000-1007), the fourth descriptor
read from the stream is not the decoded ECU's env block: the fourth read
resolves to offset 2167 while `ecu.env.block_offset` is 2168 (the fifth
read). -/
theorem ecu_blocks_fourth_read_not_env :
    (nthBlockRead (fA >>> 17) ⟨ecuBytesA, 22⟩ (dataOffset hdrA) 3).toOption.map
        (fun t => t.1)
      ≠ (ECU.decodeBody fA rA hdrA 0).toOption.map (fun p => p.1.env) ∧
    (ECU.decodeBody fA rA hdrA 0).toOption.map (fun p => p.1.env.block_offset)
      = some 2168 ∧
    (nthBlockRead (fA >>> 17) ⟨ecuBytesA, 22⟩ (dataOffset hdrA) 3).toOption.map
      (fun t => t.1.block_offset) = some 2167 := by
  refine ⟨by decide, by rfl, by rfl⟩

/-- C4: for every successful run of the ECU decode body, each of the 8
blocks satisfies `block_offset = raw offset field + data-section base`,
where the base passed to every `block::new` call is
`header.size_of_str_pool + STUB_HEADER_SIZE + header.cff_header_size + 4`. -/
theorem block_offset_eq_raw_plus_base :
    ∀ (f : Nat) (r : Raf) (header : CFFHeader) (base : Int) (ecu : ECU) (rF : Raf)
      (h : ECUHeadFields) (f1 : Nat) (r1 : Raf) (s : ECUScalars) (f2 : Nat) (r2 : Raf),
      ECU.decodeBody f r header base = .ok (ecu, rF) →
      ECU.readHead f r base = .ok (h, f1, r1) →
      ECU.readScalars f1 r1 = .ok (s, f2, r2) →
      dataOffset header
        = header.size_of_str_pool + STUB_HEADER_SIZE + header.cff_header_size + 4 ∧
      (nthBlockRawOffset f2 r2 (dataOffset header) 0).toOption.map
        (fun v => v + dataOffset header) = some ecu.ecuvarient.block_offset ∧
      (nthBlockRawOffset f2 r2 (dataOffset header) 1).toOption.map
        (fun v => v + dataOffset header) = some ecu.diagjob.block_offset ∧
      (nthBlockRawOffset f2 r2 (dataOffset header) 2).toOption.map
        (fun v => v + dataOffset header) = some ecu.dtc.block_offset ∧
      (nthBlockRawOffset f2 r2 (dataOffset header) 3).toOption.map
        (fun v => v + dataOffset header) = some ecu.vcdomain.block_offset ∧
      (nthBlockRawOffset f2 r2 (dataOffset header) 4).toOption.map
        (fun v => v + dataOffset header) = some ecu.env.block_offset ∧
      (nthBlockRawOffset f2 r2 (dataOffset header) 5).toOption.map
        (fun v => v + dataOffset header) = some ecu.presentations.block_offset ∧
      (nthBlockRawOffset f2 r2 (dataOffset header) 6).toOption.map
        (fun v => v + dataOffset header) = some ecu.info.block_offset ∧
      (nthBlockRawOffset f2 r2 (dataOffset header) 7).toOption.map
        (fun v => v + dataOffset header) = some ecu.unk_block.block_offset := by
  intro f r header base ecu rF h f1 r1 s f2 r2 hd hH hS
  obtain ⟨h', f1', r1', s', f2', r2', b8, f3, r3, u39, f4, r4, ifs, r5, sifs, r6,
    e1, e2, e3, e4, e5, e6, e7, hr⟩ := ECU.decodeBody_ok_elim hd
  rw [hH] at e1
  injection e1 with e1a
  injection e1a with hh1 e1b
  injection e1b with hf1 hr1
  subst hh1 hf1 hr1
  rw [hS] at e2
  injection e2 with e2a
  injection e2a with hs1 e2b
  injection e2b with hf2 hr2
  subst hs1 hf2 hr2
  have hraw := ECU.readBlocks_raw e3
  obtain ⟨-, -, -, -, -, hbl1, hbl2, hbl3, hbl4, hbl5, hbl6, hbl7, hbl8⟩ :=
    ECU.assemble_ok_elim e7
  rw [hbl1, hbl2, hbl3, hbl4, hbl5, hbl6, hbl7, hbl8]
  exact ⟨rfl, hraw⟩

set_option maxRecDepth 1000000 in
/-- C4 witness: on the concrete record `ecuBytesA` with a header whose
string pool is 100 bytes and whose container header is 20 bytes, the base
is 100 + 0x410 + 20 + 4 and the fourth block's offset is its raw field
plus that base. -/
theorem block_offset_eq_raw_plus_base_witness :
    dataOffset hdrA
      = hdrA.size_of_str_pool + STUB_HEADER_SIZE + hdrA.cff_header_size + 4 ∧
    (nthBlockRawOffset (fA >>> 17) ⟨ecuBytesA, 22⟩ (dataOffset hdrA) 3).toOption.map
      (fun v => v + dataOffset hdrA) = some ecuA.vcdomain.block_offset := by
  have happ := block_offset_eq_raw_plus_base fA rA hdrA 0 ecuA ⟨ecuBytesA, 142⟩ headA
    (fA >>> 11) ⟨ecuBytesA, 22⟩ scalA (fA >>> 17) ⟨ecuBytesA, 22⟩
    (by rfl) (by rfl) (by rfl)
  exact ⟨happ.1, happ.2.2.2.2.1⟩

end CBF


namespace CBF

/-- C5: a `ComParameter` constructs successfully only with `dump_size = 4`
and a 4-byte dump, in which case `com_param_value` is the little-endian
32-bit value assembled from the 4 dump bytes
(`dump[3] << 24 | dump[2] << 16 | dump[1] << 8 | dump[0]`, interpreted as
a signed 32-bit integer); any other dump size takes the panicking branch,
so there is no 1/2/8-byte fallback. -/
theorem com_parameter_dump_exactly_four :
    ∀ (r : Raf) (base : Int) (iface : ECUInterface) (cp : ComParameter) (r' : Raf),
      ComParameter.new r base iface = .ok (cp, r') →
      cp.dump_size = 4 ∧ cp.dump.length = 4 ∧
      cp.com_param_value = toSigned 32
        ((cp.dump.getD 3 0 <<< 24) ||| (cp.dump.getD 2 0 <<< 16) |||
         (cp.dump.getD 1 0 <<< 8) ||| cp.dump.getD 0 0) := by
  intro r base iface cp r' h
  obtain ⟨h1, h2, h3, -, -, -⟩ := ComParameter.new_ok_elim h
  exact ⟨h1, h2, h3⟩

/-- C5 witness (spec Scenario A): the dump `[0x32, 0, 0, 0]` decodes to the
value 50. -/
theorem com_parameter_dump_exactly_four_witness :
    (cpA.dump_size = 4 ∧ cpA.dump.length = 4 ∧
     cpA.com_param_value = toSigned 32
       ((cpA.dump.getD 3 0 <<< 24) ||| (cpA.dump.getD 2 0 <<< 16) |||
        (cpA.dump.getD 1 0 <<< 8) ||| cpA.dump.getD 0 0)) ∧
    cpA.com_param_value = 50 :=
  ⟨com_parameter_dump_exactly_four ⟨comParamBytesA, 0⟩ 0 ifaceA cpA
      ⟨comParamBytesA, 12⟩ (by rfl), by rfl⟩

/-- C6: every successfully constructed `ComParameter` has
`0 ≤ param_index < parent.com_parameters.len()` and its name is the parent
interface's name-table entry at that index (out-of-range indices take the
panicking branch of the name lookup).  The length bound `2^63` is Rust's
`isize::MAX` bound on any `Vec` length. -/
theorem com_parameter_index_in_range :
    ∀ (r : Raf) (base : Int) (iface : ECUInterface) (cp : ComParameter) (r' : Raf),
      ComParameter.new r base iface = .ok (cp, r') →
      iface.com_parameters.length < 2 ^ 63 →
      0 ≤ cp.param_index ∧
      cp.param_index < (iface.com_parameters.length : Int) ∧
      iface.com_parameters.get? cp.param_index.toNat = some cp.com_param_name := by
  intro r base iface cp r' h hlen
  obtain ⟨-, -, -, hlo, hhi, hget⟩ := ComParameter.new_ok_elim h
  obtain ⟨hlt, -⟩ := List.get?_eq_some.mp hget
  have e64 : ((2 : Int) ^ 64) = 18446744073709551616 := by norm_num
  have e63 : ((2 : Nat) ^ 63) = 9223372036854775808 := by norm_num
  have e15 : ((2 : Int) ^ 15) = 32768 := by norm_num
  rw [e15] at hlo hhi
  rw [e63] at hlen
  unfold usizeOfInt at hlt hget
  rw [e64] at hlt hget
  by_cases hneg : cp.param_index < 0
  · exfalso
    have hmod : cp.param_index % 18446744073709551616
        = cp.param_index + 18446744073709551616 := by omega
    rw [hmod] at hlt
    omega
  · push_neg at hneg
    have hmod : cp.param_index % 18446744073709551616 = cp.param_index := by omega
    rw [hmod] at hlt hget
    refine ⟨hneg, by omega, hget⟩

/-- C6 witness (spec Scenario A): with the parent name table
`["CP_BAUDRATE", "CP_P2_TIMEOUT"]` and `param_index = 1`, the decoded name
is `CP_P2_TIMEOUT`. -/
theorem com_parameter_index_in_range_witness :
    (0 ≤ cpA.param_index ∧
     cpA.param_index < (ifaceA.com_parameters.length : Int) ∧
     ifaceA.com_parameters.get? cpA.param_index.toNat = some cpA.com_param_name) ∧
    cpA.com_param_name = "CP_P2_TIMEOUT" :=
  ⟨com_parameter_index_in_range ⟨comParamBytesA, 0⟩ 0 ifaceA cpA
      ⟨comParamBytesA, 12⟩ (by rfl) (by decide), by rfl⟩

/-- C7 (spec-modelled conditional field decoder, §4.1): with mask bit 0
each decoder returns exactly the supplied default (`none` for the
offset-indirected string/byte-block readers) with the cursor untouched;
with mask bit 1 a successful read advances the cursor by exactly the
scalar's width — 4/2/1/1 bytes for i32/i16/i8/u8 — and by exactly 4 bytes
for the string and byte-block readers regardless of the target payload;
in every case the mask is shifted right by one. -/
theorem conditional_field_decoder_contract :
    ∀ (f : Nat) (r : Raf) (d : Int) (dn : Nat) (base size : Int),
      (f.testBit 0 = false →
        CReader.read_bitflag_i32 f r d = .ok (d, f >>> 1, r) ∧
        CReader.read_bitflag_i16 f r d = .ok (d, f >>> 1, r) ∧
        CReader.read_bitflag_i8 f r d = .ok (d, f >>> 1, r) ∧
        CReader.read_bitflag_u8 f r dn = .ok (dn, f >>> 1, r) ∧
        CReader.read_bitflag_string f r base = .ok (none, f >>> 1, r) ∧
        CReader.read_bitflag_dump f r size base = .ok (none, f >>> 1, r)) ∧
      (∀ (v : Int) (f' : Nat) (r' : Raf),
        CReader.read_bitflag_i32 f r d = .ok (v, f', r') →
        f' = f >>> 1 ∧ (f.testBit 0 = true → r'.pos = r.pos + 4)) ∧
      (∀ (v : Int) (f' : Nat) (r' : Raf),
        CReader.read_bitflag_i16 f r d = .ok (v, f', r') →
        f' = f >>> 1 ∧ (f.testBit 0 = true → r'.pos = r.pos + 2)) ∧
      (∀ (v : Int) (f' : Nat) (r' : Raf),
        CReader.read_bitflag_i8 f r d = .ok (v, f', r') →
        f' = f >>> 1 ∧ (f.testBit 0 = true → r'.pos = r.pos + 1)) ∧
      (∀ (v : Nat) (f' : Nat) (r' : Raf),
        CReader.read_bitflag_u8 f r dn = .ok (v, f', r') →
        f' = f >>> 1 ∧ (f.testBit 0 = true → r'.pos = r.pos + 1)) ∧
      (∀ (v : Option String) (f' : Nat) (r' : Raf),
        CReader.read_bitflag_string f r base = .ok (v, f', r') →
        f' = f >>> 1 ∧ (f.testBit 0 = true → r'.pos = r.pos + 4)) ∧
      (∀ (v : Option (List Nat)) (f' : Nat) (r' : Raf),
        CReader.read_bitflag_dump f r size base = .ok (v, f', r') →
        f' = f >>> 1 ∧ (f.testBit 0 = true → r'.pos = r.pos + 4)) := by
  intro f r d dn base size
  refine ⟨?_, ?_, ?_, ?_, ?_, ?_, ?_⟩
  · intro hbit
    refine ⟨?_, ?_, ?_, ?_, ?_, ?_⟩ <;>
      simp [CReader.read_bitflag_i32, CReader.read_bitflag_i16,
        CReader.read_bitflag_i8, CReader.read_bitflag_u8,
        CReader.read_bitflag_string, CReader.read_bitflag_dump, hbit]
  · intro v f' r' h
    exact ⟨(rbf_i32_spec h).1, fun hb => (rbf_i32_spec h).2.2.2 hb⟩
  · intro v f' r' h
    exact ⟨(rbf_i16_spec h).1, fun hb => (rbf_i16_spec h).2.2.2 hb⟩
  · intro v f' r' h
    exact ⟨(rbf_i8_spec h).1, fun hb => (rbf_i8_spec h).2.2.2 hb⟩
  · intro v f' r' h
    exact ⟨(rbf_u8_spec h).1, fun hb => (rbf_u8_spec h).2.2.2 hb⟩
  · intro v f' r' h
    exact ⟨(rbf_string_spec h).1, fun hb => (rbf_string_spec h).2.2.2 hb⟩
  · intro v f' r' h
    exact ⟨(rbf_dump_spec h).1, fun hb => (rbf_dump_spec h).2.2.2 hb⟩

/-- C7 witness: with mask 0 the i32 reader returns the default 5 and does
not move the cursor; with mask 1 it consumes the 4 bytes `[7, 7, 7, 7]`,
leaving the cursor at position 4. -/
theorem conditional_field_decoder_contract_witness :
    CReader.read_bitflag_i32 0 ⟨[7, 7, 7, 7], 0⟩ 5 = .ok (5, 0, ⟨[7, 7, 7, 7], 0⟩) ∧
    (⟨[7, 7, 7, 7], 4⟩ : Raf).pos = (⟨[7, 7, 7, 7], 0⟩ : Raf).pos + 4 := by
  constructor
  · exact ((conditional_field_decoder_contract 0 ⟨[7, 7, 7, 7], 0⟩ 5 0 0 0).1
      (by decide)).1
  · exact ((conditional_field_decoder_contract 1 ⟨[7, 7, 7, 7], 0⟩ 5 0 0 0).2.1
      117901063 0 ⟨[7, 7, 7, 7], 4⟩ (by rfl)).2 (by decide)

end CBF


namespace CBF

/-- C8: `ParamName::from_string` is total: each of the 29 known
communication-parameter names maps to its enum variant, and every string
outside the closed set maps to `UNKNOWN` without failing (the source only
logs a warning), e.g. `"CP_FOOBAR"`. -/
theorem param_name_from_string_total :
    (ParamName.from_string "CP_BAUDRATE" = .CP_BAUDRATE ∧
     ParamName.from_string "CP_GLOBAL_REQUEST_CANIDENTIFIER" = .CP_GLOBAL_REQUEST_CANIDENTIFIER ∧
     ParamName.from_string "CP_FUNCTIONAL_REQUEST_CANIDENTIFIER" = .CP_FUNCTIONAL_REQUEST_CANIDENTIFIER ∧
     ParamName.from_string "CP_REQUEST_CANIDENTIFIER" = .CP_REQUEST_CANIDENTIFIER ∧
     ParamName.from_string "CP_RESPONSE_CANIDENTIFIER" = .CP_RESPONSE_CANIDENTIFIER ∧
     ParamName.from_string "CP_PARTNUMBERID" = .CP_PARTNUMBERID ∧
     ParamName.from_string "CP_PARTBLOCK" = .CP_PARTBLOCK ∧
     ParamName.from_string "CP_HWVERSIONID" = .CP_HWVERSIONID ∧
     ParamName.from_string "CP_SWVERSIONID" = .CP_SWVERSIONID ∧
     ParamName.from_string "CP_SWVERSIONBLOCK" = .CP_SWVERSIONBLOCK ∧
     ParamName.from_string "CP_SUPPLIERID" = .CP_SUPPLIERID ∧
     ParamName.from_string "CP_SWSUPPLIERBLOCK" = .CP_SWSUPPLIERBLOCK ∧
     ParamName.from_string "CP_ADDRESSMODE" = .CP_ADDRESSMODE ∧
     ParamName.from_string "CP_ADDRESSEXTENSION" = .CP_ADDRESSEXTENSION ∧
     ParamName.from_string "CP_ROE_RESPONSE_CANIDENTIFIER" = .CP_ROE_RESPONSE_CANIDENTIFIER ∧
     ParamName.from_string "CP_USE_TIMING_RECEIVED_FROM_ECU" = .CP_USE_TIMING_RECEIVED_FROM_ECU ∧
     ParamName.from_string "CP_STMIN_SUG" = .CP_STMIN_SUG ∧
     ParamName.from_string "CP_BLOCKSIZE_SUG" = .CP_BLOCKSIZE_SUG ∧
     ParamName.from_string "CP_P2_TIMEOUT" = .CP_P2_TIMEOUT ∧
     ParamName.from_string "CP_S3_TP_PHYS_TIMER" = .CP_S3_TP_PHYS_TIMER ∧
     ParamName.from_string "CP_S3_TP_FUNC_TIMER" = .CP_S3_TP_FUNC_TIMER ∧
     ParamName.from_string "CP_BR_SUG" = .CP_BR_SUG ∧
     ParamName.from_string "CP_CAN_TRANSMIT" = .CP_CAN_TRANSMIT ∧
     ParamName.from_string "CP_BS_MAX" = .CP_BS_MAX ∧
     ParamName.from_string "CP_CS_MAX" = .CP_CS_MAX ∧
     ParamName.from_string "CPI_ROUTINECOUNTER" = .CPI_ROUTINECOUNTER ∧
     ParamName.from_string "CP_REQREPCOUNT" = .CP_REQREPCOUNT ∧
     ParamName.from_string "CP_P2_EXT_TIMEOUT_7F_78" = .CP_P2_EXT_TIMEOUT_7F_78 ∧
     ParamName.from_string "CP_P2_EXT_TIMEOUT_7F_21" = .CP_P2_EXT_TIMEOUT_7F_21) ∧
    (∀ s : String, s ∉ knownParamNames → ParamName.from_string s = .UNKNOWN) ∧
    ParamName.from_string "CP_FOOBAR" = .UNKNOWN := by
  refine ⟨by decide, ?_, by rfl⟩
  intro s hs
  unfold ParamName.from_string
  split
  all_goals first
    | rfl
    | exact absurd (by decide) hs

/-- C8 witness: the unknown name `"CP_FOOBAR"` maps to `UNKNOWN`. -/
theorem param_name_from_string_total_witness :
    ParamName.from_string "CP_FOOBAR" = .UNKNOWN :=
  param_name_from_string_total.2.1 "CP_FOOBAR" (by decide)

/-- C9: a successful `ECU::read_ecu_pool` returns exactly
`entry_count * entry_size` bytes (with the `as usize` casts and the
wrapping `usize` product of the source), taken from the buffer starting at
the block's resolved absolute offset; the block's stored `block_size`
field plays no role in the read. -/
theorem read_ecu_pool_reads_count_times_size :
    ∀ (r : Raf) (blk : block) (bs : List Nat) (r' : Raf),
      ECU.read_ecu_pool r blk = .ok (bs, r') →
      (bs.length = usizeOfInt blk.entry_count * usizeOfInt blk.entry_size % 2 ^ 64 ∧
       bs = ((r.data.drop (usizeOfInt blk.block_offset)).take
         (usizeOfInt blk.entry_count * usizeOfInt blk.entry_size % 2 ^ 64)).map
         (fun b => b % 256)) ∧
      ∀ s : Int, ECU.read_ecu_pool r { blk with block_size := s }
        = ECU.read_ecu_pool r blk := by
  intro r blk bs r' h
  refine ⟨?_, fun s => rfl⟩
  unfold ECU.read_ecu_pool at h
  dsimp only at h
  unfold Raf.readBytes at h
  split at h
  · rename_i hle
    injection h with h1
    injection h1 with hbs hr
    subst hbs
    refine ⟨?_, rfl⟩
    simp only [Raf.seek] at hle
    simp only [Raf.seek, List.length_map, List.length_take, List.length_drop]
    omega
  · exact absurd h (by simp)

/-- C9 witness (spec Scenario C): a block with `entry_count = 3` and
`entry_size = 16` reads exactly 48 bytes, and changing only the stored
total size (999 to 7777) changes nothing about the read. -/
theorem read_ecu_pool_reads_count_times_size_witness :
    ((((List.range 60).drop 4).take 48).map (fun b => b % 256)).length = 48 ∧
    ECU.read_ecu_pool ⟨List.range 60, 0⟩ ⟨4, 3, 16, 7777⟩
      = ECU.read_ecu_pool ⟨List.range 60, 0⟩ ⟨4, 3, 16, 999⟩ := by
  have happ := read_ecu_pool_reads_count_times_size ⟨List.range 60, 0⟩ ⟨4, 3, 16, 999⟩
    ((((List.range 60).drop 4).take 48).map (fun b => b % 256)) ⟨List.range 60, 52⟩
    (by rfl)
  exact ⟨happ.1.1.trans (by decide), happ.2 7777⟩

/-- C10: in the ECU decode body, the conditional strings `name` (mask bit
0), `xml_version` (bit 3) and `ecu_class_name` (bit 8) are mandatory — if
any of those bits is unset the whole construction fails — while `unk_str7`
(bit 9) and `unk_str8` (bit 10) default to `"N/A"` and `"Unknown"` when
absent. -/
theorem ecu_mandatory_and_optional_strings :
    ∀ (f : Nat) (r : Raf) (header : CFFHeader) (base : Int),
      (f.testBit 0 = false → exOk (ECU.decodeBody f r header base) = false) ∧
      (f.testBit 3 = false → exOk (ECU.decodeBody f r header base) = false) ∧
      (f.testBit 8 = false → exOk (ECU.decodeBody f r header base) = false) ∧
      (∀ (ecu : ECU) (rF : Raf), ECU.decodeBody f r header base = .ok (ecu, rF) →
        (f.testBit 9 = false → ecu.unk_str7 = "N/A") ∧
        (f.testBit 10 = false → ecu.unk_str8 = "Unknown")) := by
  intro f r header base
  refine ⟨?_, ?_, ?_, ?_⟩
  · intro hbit
    cases hd : ECU.decodeBody f r header base with
    | error e => rfl
    | ok p =>
      obtain ⟨ecu, rF⟩ := p
      exfalso
      obtain ⟨h, f1, r1, s, f2, r2, b8, f3, r3, u39, f4, r4, ifs, r5, sifs, r6,
        e1, e2, e3, e4, e5, e6, e7, hr⟩ := ECU.decodeBody_ok_elim hd
      have hn := (ECU.readHead_fields e1).2.1 hbit
      have ha := (ECU.assemble_ok_elim e7).1
      rw [hn] at ha
      exact absurd ha (by simp)
  · intro hbit
    cases hd : ECU.decodeBody f r header base with
    | error e => rfl
    | ok p =>
      obtain ⟨ecu, rF⟩ := p
      exfalso
      obtain ⟨h, f1, r1, s, f2, r2, b8, f3, r3, u39, f4, r4, ifs, r5, sifs, r6,
        e1, e2, e3, e4, e5, e6, e7, hr⟩ := ECU.decodeBody_ok_elim hd
      have hn := (ECU.readHead_fields e1).2.2.1 hbit
      have ha := (ECU.assemble_ok_elim e7).2.1
      rw [hn] at ha
      exact absurd ha (by simp)
  · intro hbit
    cases hd : ECU.decodeBody f r header base with
    | error e => rfl
    | ok p =>
      obtain ⟨ecu, rF⟩ := p
      exfalso
      obtain ⟨h, f1, r1, s, f2, r2, b8, f3, r3, u39, f4, r4, ifs, r5, sifs, r6,
        e1, e2, e3, e4, e5, e6, e7, hr⟩ := ECU.decodeBody_ok_elim hd
      have hn := (ECU.readHead_fields e1).2.2.2.1 hbit
      have ha := (ECU.assemble_ok_elim e7).2.2.1
      rw [hn] at ha
      exact absurd ha (by simp)
  · intro ecu rF hd
    obtain ⟨h, f1, r1, s, f2, r2, b8, f3, r3, u39, f4, r4, ifs, r5, sifs, r6,
      e1, e2, e3, e4, e5, e6, e7, hr⟩ := ECU.decodeBody_ok_elim hd
    have hf := ECU.readHead_fields e1
    have ha := ECU.assemble_ok_elim e7
    constructor
    · intro hbit
      have h7 := hf.2.2.2.2.1 hbit
      have hs7 := ha.2.2.2.1
      rw [h7] at hs7
      simpa using hs7
    · intro hbit
      have h8 := hf.2.2.2.2.2 hbit
      have hs8 := ha.2.2.2.2.1
      rw [h8] at hs8
      simpa using hs8

set_option maxRecDepth 1000000 in
/-- C10 witness: an all-zero mask (name bit unset) makes the decode body
fail; on the concrete record `ecuBytesA`, whose bits 9 and 10 are unset,
the decoded ECU carries the defaults `"N/A"` and `"Unknown"`. -/
theorem ecu_mandatory_and_optional_strings_witness :
    exOk (ECU.decodeBody 0 ⟨[], 0⟩ hdrA 0) = false ∧
    ecuA.unk_str7 = "N/A" ∧ ecuA.unk_str8 = "Unknown" := by
  refine ⟨(ecu_mandatory_and_optional_strings 0 ⟨[], 0⟩ hdrA 0).1 (by decide), ?_, ?_⟩
  · exact ((ecu_mandatory_and_optional_strings fA rA hdrA 0).2.2.2 ecuA
      ⟨ecuBytesA, 142⟩ (by rfl)).1 (by decide)
  · exact ((ecu_mandatory_and_optional_strings fA rA hdrA 0).2.2.2 ecuA
      ⟨ecuBytesA, 142⟩ (by rfl)).2 (by decide)

end CBF
